import Mathlib

/-!
Shallow embedding of the erno background-job subsystem, rate limiter and
WebSocket dispatcher, translated from the Rust source:

* `src/jobs/worker.rs`        — claim / execute / persist loop
* `src/jobs/job_supervisor.rs`— stuck-job recovery and retention cleanup
* `src/jobs/job_registry.rs`  — name → executor registry
* `src/rate_limiting/rate_limit_state.rs` — sliding-window multi-tier limiter
* `src/websocket/listener.rs` — outbox drain driven by NOTIFY

Modelling conventions:
* Database timestamps (`chrono::NaiveDateTime`) are integers counting
  milliseconds; `chrono::Duration` values are integer milliseconds.
  Every chrono operation appearing in the source (`Duration::seconds`,
  `Duration::milliseconds`, `num_seconds`, `num_milliseconds`, `+`, `-`)
  is exact at millisecond granularity.
* `std::time::Instant` / `std::time::Duration` in the rate limiter are
  rationals counting seconds; the `f64` backoff multiplier and
  `Duration::mul_f64` are modelled as exact rational arithmetic.
* `Uuid` values are modelled as `Nat`; database tables as `List`s of row
  structures; a SeaORM `update` on an `ActiveModel` writes back through the
  primary key (`updateById`).
* Machine-integer overflow is made explicit (`% 2^64`, saturation at
  `i64::MAX`) exactly where the source performs the conversion.
-/

namespace Erno

/-- `JobStatus` from `src/database/models/job_status.rs`. -/
inductive JobStatus
  | pending
  | pendingRetry
  | running
  | completed
  | failed
deriving DecidableEq, Repr

/-- `JobError` from `src/jobs.rs`: permanent vs transient job failure. -/
inductive JobError
  | failPermanently (msg : String)
  | tryAgainLater (msg : String)
deriving DecidableEq, Repr

/-- Runtime `JobResult` from `src/jobs/job_result.rs`. -/
inductive JobResult
  | completed
  | failed (e : JobError)
  | timedOut
deriving DecidableEq, Repr

/-- Database enum `job_result` from `src/database/models/job_result.rs`. -/
inductive JobResultEnum
  | completed
  | failed
  | timedOut
deriving DecidableEq, Repr

/-- A JSON value (`serde_json::Value`). -/
inductive Json
  | null
  | bool (b : Bool)
  | num (n : Int)
  | str (s : String)
  | arr (elems : List Json)
  | obj (fields : List (String × Json))
deriving BEq, Repr

/-- Row of table `job` (`src/database/models/job.rs`, struct `Model`).
Timestamps are milliseconds. -/
structure JobModel where
  id : Nat
  created_at : Int
  updated_at : Int
  type : String
  arguments : Json
  status : JobStatus
  retry_count : Int
  next_execution_at : Option Int
deriving Repr

/-- Row of table `job_execution` (`src/database/models/job_execution.rs`). -/
structure JobExecutionModel where
  job_id : Nat
  result : JobResultEnum
  started_at : Int
  finished_at : Int
  execution_time_ms : Int
  failure_reason : Option String
  created_at : Int
deriving Repr

/-- `WorkerQueueConfig` from `src/config.rs` (field types: `jobs : Vec<String>`,
`count : u32`, `job_timeout : u32` seconds, `max_retries : i32`,
`base_retry_delay_seconds : u64`, `retry_backoff_multiplier : u64`). -/
structure WorkerQueueConfig where
  jobs : List String
  count : Nat
  job_timeout : Nat
  max_retries : Int
  base_retry_delay_seconds : Nat
  retry_backoff_multiplier : Nat
deriving Repr

/-- The filter of `claim_oldest_viable_job` (`src/jobs/worker.rs` lines
179-187): type served by the pool, status `Pending`/`PendingRetry`,
`retry_count < max_retries`, and `next_execution_at` null or `≤ now`. -/
def jobViable (cfg : WorkerQueueConfig) (now : Int) (j : JobModel) : Bool :=
  cfg.jobs.contains j.type
    && (j.status == .pending || j.status == .pendingRetry)
    && decide (j.retry_count < cfg.max_retries)
    && (match j.next_execution_at with
        | none => true
        | some t => decide (t ≤ now))

/-- One accumulation step of the minimal-key scan. -/
def oldestStep {α : Type} (key : α → Int) (acc : Option α) (j : α) : Option α :=
  match acc with
  | none => some j
  | some b => if key j < key b then some j else acc

/-- `ORDER BY created_at ASC LIMIT 1`: first row carrying the minimal key
(ties resolved by the backend's row order, here list order). -/
def selectOldestBy {α : Type} (key : α → Int) (rows : List α) : Option α :=
  rows.foldl (oldestStep key) none

/-- The oldest `job` row by `created_at`. -/
def selectOldest (rows : List JobModel) : Option JobModel :=
  selectOldestBy JobModel.created_at rows

/-- Write a row back through its primary key, as a SeaORM `ActiveModel.update`
does. -/
def updateById (i : Nat) (f : JobModel → JobModel) (rows : List JobModel) :
    List JobModel :=
  rows.map fun j => if j.id = i then f j else j

/-- Overwrite the status field (`active_model.status = Set(...)`). -/
def setStatus (s : JobStatus) (j : JobModel) : JobModel :=
  { j with status := s }

/-- `claim_oldest_viable_job` (`src/jobs/worker.rs` lines 171-206): inside one
transaction, select the oldest viable row with an exclusive row lock, mark it
`Running`, commit, and return the pre-update snapshot.  The transaction plus
row lock serialize concurrent claims, so the operation is embedded as an
atomic step on the table. -/
def claim_oldest_viable_job (cfg : WorkerQueueConfig) (now : Int)
    (rows : List JobModel) : Option JobModel × List JobModel :=
  match selectOldest (rows.filter (jobViable cfg now)) with
  | none => (none, rows)
  | some j => (some j, updateById j.id (setStatus .running) rows)

/-- The `Display` of `JobError` (`src/jobs.rs`, `#[error("{0}")]`): the
message itself. -/
def JobError.message : JobError → String
  | .failPermanently m => m
  | .tryAgainLater m => m

/-- Map the runtime result onto the database enum
(`src/jobs/worker.rs` lines 224-228). -/
def resultToEnum : JobResult → JobResultEnum
  | .completed => .completed
  | .failed _ => .failed
  | .timedOut => .timedOut

/-- `failure_reason` recorded for the execution attempt
(`src/jobs/worker.rs` lines 232-236). -/
def failureReasonOf : JobResult → Option String
  | .failed reason => some reason.message
  | .timedOut => some "Job execution timed out"
  | .completed => none

/-- The retry decision of `handle_job_failure`
(`src/jobs/worker.rs` lines 281-287). -/
def shouldRetry (result : JobResult) (current_retry_count max_retries : Int) :
    Bool :=
  match result with
  | .failed (.failPermanently _) => false
  | .failed (.tryAgainLater _) => decide (current_retry_count < max_retries)
  | .timedOut => decide (current_retry_count < max_retries)
  | .completed => false

/-- `calculate_next_retry_time` (`src/jobs/worker.rs` lines 347-355).
`retry_count.try_into::<u32>()` fails exactly for negative values, in which
case the exponent falls back to `5`; the `u64` power and product wrap modulo
`2^64` ; `delay_seconds.try_into::<i64>()` saturates to `i64::MAX`; the delay
is added to `now` as seconds (here: milliseconds × 1000). -/
def calculate_next_retry_time (now : Int) (retry_count : Int)
    (cfg : WorkerQueueConfig) : Int :=
  let exp : Nat := if 0 ≤ retry_count then retry_count.toNat else 5
  let delay_seconds : Nat :=
    cfg.base_retry_delay_seconds * (cfg.retry_backoff_multiplier ^ exp % 2 ^ 64)
      % 2 ^ 64
  let delay_seconds_i64 : Int :=
    if delay_seconds ≤ 2 ^ 63 - 1 then (delay_seconds : Int) else 2 ^ 63 - 1
  now + 1000 * delay_seconds_i64

/-- `update_job_for_retry` (`src/jobs/worker.rs` lines 319-331): status
`PendingRetry`, the given (already incremented) retry count, and the computed
`next_execution_at`. -/
def update_job_for_retry (j : JobModel) (next_execution_at : Int)
    (retry_count : Int) : JobModel :=
  { j with
    status := .pendingRetry
    retry_count := retry_count
    next_execution_at := some next_execution_at }

/-- `update_job_as_permanently_failed` (`src/jobs/worker.rs` lines 333-345). -/
def update_job_as_permanently_failed (j : JobModel) (result : JobResult) :
    JobModel :=
  setStatus
    (match result with
     | .failed _ | .timedOut => .failed
     | .completed => .completed)
    j

/-- `handle_job_failure` (`src/jobs/worker.rs` lines 272-317): retry with
backoff when `should_retry`, otherwise terminal failure. -/
def handle_job_failure (j : JobModel) (result : JobResult)
    (current_retry_count : Int) (cfg : WorkerQueueConfig) (now : Int) :
    JobModel :=
  if shouldRetry result current_retry_count cfg.max_retries then
    update_job_for_retry j (calculate_next_retry_time now current_retry_count cfg)
      (current_retry_count + 1)
  else
    update_job_as_permanently_failed j result

/-- `update_job_after_execution` (`src/jobs/worker.rs` lines 208-270): insert
one `job_execution` row for the attempt, then either mark the job `Completed`
or run the failure path. -/
def update_job_after_execution (j : JobModel) (execution_result : JobResult)
    (execution_time_ms : Int) (cfg : WorkerQueueConfig) (now : Int) :
    JobExecutionModel × JobModel :=
  let executionRow : JobExecutionModel :=
    { job_id := j.id
      result := resultToEnum execution_result
      started_at := now - execution_time_ms
      finished_at := now
      execution_time_ms := execution_time_ms
      failure_reason := failureReasonOf execution_result
      created_at := now }
  let updatedJob : JobModel :=
    match execution_result with
    | .completed => setStatus .completed j
    | result => handle_job_failure j result j.retry_count cfg now
  (executionRow, updatedJob)

/-! ## Stuck-job recovery (`src/jobs/job_supervisor.rs`) -/

/-- The stuck filter of `recover_stuck_jobs_for_pool`
(`src/jobs/job_supervisor.rs` lines 246-257): `status = Running`, type served
by the pool, and `updated_at ≤ now − 2 × job_timeout`. -/
def jobStuck (cfg : WorkerQueueConfig) (now : Int) (j : JobModel) : Bool :=
  j.status == .running
    && cfg.jobs.contains j.type
    && decide (j.updated_at ≤ now - 1000 * (2 * (cfg.job_timeout : Int)))

/-- The `job_execution` row inserted by `recover_individual_stuck_job`
(`src/jobs/job_supervisor.rs` lines 288-306).  `num_seconds` of a chrono
duration truncates toward zero; the recovered durations are non-negative, so
Euclidean division by 1000 coincides with it where the theorems apply. -/
def recoveryExecutionRow (stuck_job : JobModel)
    (stuck_threshold_seconds : Nat) (now : Int) : JobExecutionModel :=
  let running_duration_ms : Int := now - stuck_job.updated_at
  { job_id := stuck_job.id
    result := .timedOut
    started_at := stuck_job.updated_at
    finished_at := now
    execution_time_ms := running_duration_ms
    failure_reason := some
      ("Job recovered after running for " ++ toString (running_duration_ms / 1000)
        ++ "s (exceeded threshold of " ++ toString stuck_threshold_seconds ++ "s)")
    created_at := now }

/-- `recover_stuck_jobs_for_pool` + `recover_individual_stuck_job`
(`src/jobs/job_supervisor.rs` lines 241-314): find stuck rows, insert one
`TimedOut` execution row per stuck row, and reset each to `Pending` through
its primary key.  Returns (inserted execution rows, updated table). -/
def recover_stuck_jobs_for_pool (cfg : WorkerQueueConfig) (now : Int)
    (rows : List JobModel) : List JobExecutionModel × List JobModel :=
  let stuck := rows.filter (jobStuck cfg now)
  (stuck.map (fun j => recoveryExecutionRow j (cfg.job_timeout * 2) now),
   stuck.foldl (fun acc j => updateById j.id (setStatus .pending) acc) rows)

/-! ## Retention cleanup (`src/jobs/job_supervisor.rs`) -/

/-- `CleanupConfig` from `src/config.rs` (`interval_seconds : u64`,
`completed_retention_seconds : u64`, `failed_retention_seconds : u64`,
`batch_size : usize`). -/
structure CleanupConfig where
  interval_seconds : Nat
  completed_retention_seconds : Nat
  failed_retention_seconds : Nat
  batch_size : Nat
deriving Repr

/-- The batch selected by `cleanup_jobs_by_status`
(`src/jobs/job_supervisor.rs` lines 393-399): matching rows ordered by
`created_at` ascending, limited to `batch_size`. -/
def cleanupBatch (rows : List JobModel) (statuses : List JobStatus)
    (cutoff_time : Int) (batch_size : Nat) : List JobModel :=
  ((rows.filter fun j =>
      statuses.contains j.status && decide (j.created_at ≤ cutoff_time)).mergeSort
    (fun a b => decide (a.created_at ≤ b.created_at))).take batch_size

/-- One pass of the `loop` in `cleanup_jobs_by_status`: fuel-indexed iteration
of select-batch / delete-by-id until the batch comes back empty. -/
def cleanupLoop (statuses : List JobStatus) (cutoff_time : Int)
    (batch_size : Nat) : Nat → List JobModel → List JobModel
  | 0, rows => rows
  | fuel + 1, rows =>
    let batch := cleanupBatch rows statuses cutoff_time batch_size
    if batch.isEmpty then rows
    else
      cleanupLoop statuses cutoff_time batch_size fuel
        (rows.filter fun j => !(batch.map JobModel.id).contains j.id)

/-- `cleanup_jobs_by_status` (`src/jobs/job_supervisor.rs` lines 385-421).
The table shrinks by at least one row per non-empty batch, so
`rows.length + 1` rounds of fuel always reach the empty batch. -/
def cleanup_jobs_by_status (rows : List JobModel) (statuses : List JobStatus)
    (cutoff_time : Int) (batch_size : Nat) : List JobModel :=
  cleanupLoop statuses cutoff_time batch_size (rows.length + 1) rows

/-- `u64 → i64` conversion with the source's fallback
(`config.completed_retention_seconds.try_into().unwrap_or(default)`). -/
def retentionOr (retention defaultSecs : Nat) : Int :=
  if retention ≤ 2 ^ 63 - 1 then (retention : Int) else (defaultSecs : Int)

/-- `cleanup_old_jobs` (`src/jobs/job_supervisor.rs` lines 350-382): delete
old `Completed` rows, then old `Failed` rows, each against its own cutoff. -/
def cleanup_old_jobs (config : CleanupConfig) (now : Int)
    (rows : List JobModel) : List JobModel :=
  let completed_cutoff :=
    now - 1000 * retentionOr config.completed_retention_seconds 7200
  let failed_cutoff :=
    now - 1000 * retentionOr config.failed_retention_seconds 172800
  let afterCompleted :=
    cleanup_jobs_by_status rows [.completed] completed_cutoff config.batch_size
  cleanup_jobs_by_status afterCompleted [.failed] failed_cutoff
    config.batch_size

/-! ## Rate limiter (`src/rate_limiting/rate_limit_state.rs`)

Instants and durations are rationals counting seconds; the `f64`
`backoff_multiplier`, `f64::powi` and `Duration::mul_f64` are modelled as
exact rational arithmetic. -/

/-- `RateLimitTier`: no more than `max_requests` in a `window_secs` window. -/
structure RateLimitTier where
  window_secs : Nat
  max_requests : Nat
deriving DecidableEq, Repr

/-- `ActionRateLimit`: the ordered tiers of one action. -/
structure ActionRateLimit where
  tiers : List RateLimitTier
deriving DecidableEq, Repr

/-- Per-client state (`struct ClientState`): sliding log of request
instants, cumulative violation count, optional block expiry. -/
structure ClientState where
  requests : List ℚ
  violations : Nat
  blocked_until : Option ℚ
deriving DecidableEq, Repr

/-- `ClientState::new`. -/
def ClientState.new : ClientState :=
  { requests := [], violations := 0, blocked_until := none }

/-- `ClientState::is_blocked` (lines 203-211): remaining block duration if
`now < blocked_until`. -/
def ClientState.is_blocked (c : ClientState) (now : ℚ) : Option ℚ :=
  match c.blocked_until with
  | some blocked_until =>
    if now < blocked_until then some (blocked_until - now) else none
  | none => none

/-- The longest configured window
(`limit.tiers.iter().map(window).max().unwrap_or(60)` in `record_request`). -/
def maxWindowSecs (limit : ActionRateLimit) : Nat :=
  match limit.tiers.map RateLimitTier.window_secs with
  | [] => 60
  | w :: ws => ws.foldl max w

/-- `ClientState::cleanup_expired` (lines 217-220): keep instants strictly
after `now − window`. -/
def cleanupExpired (requests : List ℚ) (now : ℚ) (window : ℚ) : List ℚ :=
  requests.filter fun t => decide (now - window < t)

/-- Requests counted inside one tier's window (line 251):
`requests.iter().filter(|t| t > cutoff).count()` with `cutoff = now − window`. -/
def countInWindow (requests : List ℚ) (now : ℚ) (window_secs : Nat) : Nat :=
  (requests.filter fun t => decide (now - (window_secs : ℚ) < t)).length

/-- `ClientState::record_request` (lines 227-284): prune to the longest
window, test the tiers in order, and on the first exceeded tier apply the
exponential-backoff penalty; otherwise append `now`.  Returns the new state
and `some penalty` on rejection. -/
def ClientState.record_request (c : ClientState) (limit : ActionRateLimit)
    (backoff_multiplier : ℚ) (now : ℚ) : ClientState × Option ℚ :=
  let reqs := cleanupExpired c.requests now (maxWindowSecs limit : ℚ)
  match limit.tiers.find?
      (fun tier => tier.max_requests ≤ countInWindow reqs now tier.window_secs) with
  | some tier =>
    let violations := c.violations + 1
    let penalty : ℚ :=
      (tier.window_secs : ℚ) * backoff_multiplier ^ (violations - 1)
    ({ requests := reqs
       violations := violations
       blocked_until := some (now + penalty) },
     some penalty)
  | none =>
    ({ c with requests := reqs ++ [now] }, none)

/-- `RateLimitState::check_rate_limit` (lines 313-346) for one client,
parametrised by the action's resolved limit.  `none` means the request is
allowed; `some d` is the retry-after duration. -/
def check_rate_limit (enabled : Bool) (limit : ActionRateLimit)
    (backoff_multiplier : ℚ) (c : ClientState) (now : ℚ) :
    ClientState × Option ℚ :=
  if !enabled then (c, none)
  else
    match c.is_blocked now with
    | some remaining => (c, some remaining)
    | none => c.record_request limit backoff_multiplier now

/-- A sequence of admission checks against one client's state; each check
carries the limit resolved for its action and its instant.  Returns the final
state and the per-check outcomes. -/
def runChecks (enabled : Bool) (backoff_multiplier : ℚ) :
    List (ActionRateLimit × ℚ) → ClientState → ClientState × List (Option ℚ)
  | [], c => (c, [])
  | (limit, t) :: rest, c =>
    let step := check_rate_limit enabled limit backoff_multiplier c t
    let tail := runChecks enabled backoff_multiplier rest step.1
    (tail.1, step.2 :: tail.2)

/-- The instants of the accepted (recorded) requests of a check sequence. -/
def acceptedTimes (enabled : Bool) (backoff_multiplier : ℚ) :
    List (ActionRateLimit × ℚ) → ClientState → List ℚ
  | [], _ => []
  | (limit, t) :: rest, c =>
    let step := check_rate_limit enabled limit backoff_multiplier c t
    (if step.2 = none then [t] else []) ++
      acceptedTimes enabled backoff_multiplier rest step.1

/-! ## Job registry (`src/jobs/job_registry.rs`) -/

/-- The adapter built by `JobRegistry::register_job` (lines 26-40) around a
job's typed pieces: deserialize the JSON arguments (`serde_json::from_value`,
here any decoding function into the job's `Arguments` type), surfacing a parse
failure as `FailPermanently`, then run the job's logic. -/
def adaptJob {Arguments : Type} (parse : Json → Except String Arguments)
    (logic : Arguments → Except JobError Unit) :
    Json → Except JobError Unit :=
  fun args_json =>
    match parse args_json with
    | .error e =>
      .error (.failPermanently ("Failed to parse job arguments: " ++ e))
    | .ok arguments => logic arguments

/-- `JobRegistry::execute` (lines 46-62): look the executor up by job type and
map its outcome onto `JobResult`. -/
def registryExecute
    (registry : List (String × (Json → Except JobError Unit)))
    (type : String) (arguments : Json) : JobResult :=
  match registry.lookup type with
  | some executor =>
    match executor arguments with
    | .ok _ => .completed
    | .error e => .failed e
  | none =>
    .failed (.failPermanently ("No job registered for job type: " ++ type))

/-! ## WebSocket dispatcher (`src/websocket/listener.rs`) -/

/-- `RecipientCriteria` (lines 10-17): serde tagged union with
`tag = "type"`, `rename_all = "snake_case"`.  User ids are UUID strings. -/
inductive RecipientCriteria
  | user (user_id : String)
  | all
deriving DecidableEq, Repr

/-- Row of table `websocket_message`
(`src/database/models/websocket_message.rs`). -/
structure WsMessageModel where
  id : Nat
  recipient_criteria : Json
  payload : Json
  created_at : Int
deriving Repr

/-- A fan-out call on the connection hub (`send_to_user` / `send_to_all`,
with the payload already serialized to text). -/
inductive WsAction
  | sendToUser (user_id : String) (payload : String)
  | sendToAll (payload : String)
deriving DecidableEq, Repr

/-- `serde_json::from_value::<RecipientCriteria>`: decode the tagged union
`{"type":"user","user_id":…}` / `{"type":"all"}` (internally tagged, unknown
fields tolerated). -/
def parseRecipientCriteria (v : Json) : Option RecipientCriteria :=
  match v with
  | .obj fields =>
    match fields.lookup "type" with
    | some (.str "all") => some .all
    | some (.str "user") =>
      match fields.lookup "user_id" with
      | some (.str user_id) => some (.user user_id)
      | _ => none
    | _ => none
  | _ => none

/-- `serde_json::to_string` on an owned `serde_json::Value`: total
serialization to JSON text (string escaping kept minimal). -/
def serializeJson : Json → String
  | .null => "null"
  | .bool true => "true"
  | .bool false => "false"
  | .num n => toString n
  | .str s => "\"" ++ s ++ "\""
  | .arr elems =>
    "[" ++
      String.intercalate "," (elems.attach.map fun e => serializeJson e.1) ++
      "]"
  | .obj fields =>
    "\x7b" ++
      String.intercalate ","
        (fields.attach.map fun kv =>
          "\"" ++ kv.1.1 ++ "\":" ++ serializeJson kv.1.2) ++
      "\x7d"
decreasing_by
  · have h := List.sizeOf_lt_of_mem e.2
    simp only [Json.arr.sizeOf_spec]
    omega
  · have h := List.sizeOf_lt_of_mem kv.2
    have h2 : sizeOf kv.1.2 < sizeOf kv.1 := by
      obtain ⟨⟨a, b⟩, hm⟩ := kv
      simp
    simp only [Json.obj.sizeOf_spec]
    omega

/-- `ORDER BY created_at ASC LIMIT 1` over the outbox. -/
def selectOldestMessage (rows : List WsMessageModel) : Option WsMessageModel :=
  selectOldestBy WsMessageModel.created_at rows

/-- The fan-out a single row produces, if its criteria parse
(lines 84-122): `send_to_user` or `send_to_all` with the serialized payload. -/
def messageAction (m : WsMessageModel) : Option WsAction :=
  match parseRecipientCriteria m.recipient_criteria with
  | some (.user user_id) => some (.sendToUser user_id (serializeJson m.payload))
  | some .all => some (.sendToAll (serializeJson m.payload))
  | none => none

/-- The inner drain loop of `listen_loop` (lines 57-130), fuel-indexed:
repeatedly fetch the oldest row; if its criteria fail to parse, delete it and
continue; otherwise fan out and delete it; stop when the table is empty.
Returns the emitted fan-out calls in order and the remaining table. -/
def drainLoop : Nat → List WsMessageModel → List WsAction × List WsMessageModel
  | 0, rows => ([], rows)
  | fuel + 1, rows =>
    match selectOldestMessage rows with
    | none => ([], rows)
    | some m =>
      let remaining := rows.filter fun r => r.id ≠ m.id
      let tail := drainLoop fuel remaining
      match messageAction m with
      | some a => (a :: tail.1, tail.2)
      | none => tail

/-- One full drain of the outbox: as in the source, every iteration deletes
the selected row, so `rows.length` rounds of fuel empty the table. -/
def drainQueue (rows : List WsMessageModel) :
    List WsAction × List WsMessageModel :=
  drainLoop rows.length rows

/-- `listen_loop` (lines 37-132): after connecting it blocks on
`listener.recv()` and drains the outbox once per received notification —
there is no drain before the first notification.  Embedded over the number of
notifications received (the table is otherwise quiescent). -/
def listen_loop (notifications : Nat) (rows : List WsMessageModel) :
    List WsAction × List WsMessageModel :=
  match notifications with
  | 0 => ([], rows)
  | n + 1 =>
    let first := drainQueue rows
    let rest := listen_loop n first.2
    (first.1 ++ rest.1, rest.2)

/-! ## Concrete instances used to exercise the definitions -/

/-- A pool serving job type `"a"`: `max_retries = 4`,
`base_retry_delay_seconds = 1`, `retry_backoff_multiplier = 2` (the §S2
parameters of the spec). -/
def exampleWorkerConfig : WorkerQueueConfig :=
  { jobs := ["a"], count := 1, job_timeout := 300, max_retries := 4
    base_retry_delay_seconds := 1, retry_backoff_multiplier := 2 }

/-- The same pool with `retry_backoff_multiplier = 0`, a value the
configuration accepts (`u64`, no validation). -/
def zeroMultiplierConfig : WorkerQueueConfig :=
  { jobs := ["a"], count := 1, job_timeout := 300, max_retries := 4
    base_retry_delay_seconds := 1, retry_backoff_multiplier := 0 }

/-- A fresh pending job. -/
def exampleJobNew : JobModel :=
  { id := 1, created_at := 100, updated_at := 100, type := "a"
    arguments := .null, status := .pending, retry_count := 0
    next_execution_at := none }

/-- An older job waiting for a retry that is already due. -/
def exampleJobOld : JobModel :=
  { id := 2, created_at := 50, updated_at := 50, type := "a"
    arguments := .null, status := .pendingRetry, retry_count := 1
    next_execution_at := some 10 }

/-- A running job whose `updated_at` lies beyond twice the pool timeout. -/
def exampleJobStuck : JobModel :=
  { id := 3, created_at := 40, updated_at := 40, type := "a"
    arguments := .null, status := .running, retry_count := 0
    next_execution_at := none }

/-- A two-row job table. -/
def exampleTable : List JobModel := [exampleJobNew, exampleJobOld]

/-- A completed job old enough for retention cleanup. -/
def exampleJobDone : JobModel :=
  { id := 4, created_at := 0, updated_at := 0, type := "a"
    arguments := .null, status := .completed, retry_count := 0
    next_execution_at := none }

/-- The retention configuration used in the cleanup witness. -/
def exampleCleanupConfig : CleanupConfig :=
  { interval_seconds := 3600, completed_retention_seconds := 7200
    failed_retention_seconds := 172800, batch_size := 1000 }

/-- The client state after two accepted requests at instants 0 and 1/2. -/
def s6ThirdState : ClientState :=
  { requests := [0, 1 / 2], violations := 0, blocked_until := none }

/-- The limiter of scenario S6: tiers `[(5, 2), (60, 100)]`. -/
def s6Limit : ActionRateLimit := ⟨[⟨5, 2⟩, ⟨60, 100⟩]⟩

/-- Scenario S6: three requests within one second against `s6Limit`. -/
def s6Checks : List (ActionRateLimit × ℚ) :=
  [(s6Limit, 0), (s6Limit, 1 / 2), (s6Limit, 1)]

/-- An action limited to 5 requests per 60 s. -/
def slowLimit : ActionRateLimit := ⟨[⟨60, 5⟩]⟩

/-- An action limited to 2 requests per 5 s (shorter max window). -/
def fastLimit : ActionRateLimit := ⟨[⟨5, 2⟩]⟩

/-- Interleaved checks of the two actions from one client: five `slowLimit`
requests, then one `fastLimit` request whose pruning (to `fastLimit`'s max
window) erases the history, then one more `slowLimit` request. -/
def mixedActionChecks : List (ActionRateLimit × ℚ) :=
  [(slowLimit, 0), (slowLimit, 1), (slowLimit, 2), (slowLimit, 3),
   (slowLimit, 4), (fastLimit, 10), (slowLimit, 11)]

/-- A well-formed broadcast outbox row. -/
def exampleOutboxRow : WsMessageModel :=
  { id := 1, recipient_criteria := .obj [("type", .str "all")]
    payload := .num 5, created_at := 10 }

/-- An outbox row addressed to one user. -/
def exampleUserRow : WsMessageModel :=
  { id := 2
    recipient_criteria := .obj [("type", .str "user"), ("user_id", .str "u1")]
    payload := .obj [("hello", .num 1)], created_at := 5 }

/-- An outbox row whose `recipient_criteria` does not parse. -/
def exampleMalformedRow : WsMessageModel :=
  { id := 3, recipient_criteria := .str "bad", payload := .null
    created_at := 7 }

/-! # Theorems -/

/-! ## Oldest-row selection -/

theorem oldestStep_some {α : Type} (key : α → Int) :
    ∀ (rows : List α) (b : α),
      ∃ c, rows.foldl (oldestStep key) (some b) = some c ∧
        (c = b ∨ c ∈ rows) ∧ key c ≤ key b ∧ ∀ k ∈ rows, key c ≤ key k := by
  intro rows
  induction rows with
  | nil => exact fun b => ⟨b, rfl, .inl rfl, le_refl _, by simp⟩
  | cons j rows ih =>
    intro b
    by_cases hlt : key j < key b
    · obtain ⟨c, hc, hmem, hle, hall⟩ := ih j
      refine ⟨c, ?_, ?_, le_of_lt (lt_of_le_of_lt hle hlt), ?_⟩
      · simpa [List.foldl_cons, oldestStep, hlt] using hc
      · rcases hmem with h | h
        · exact .inr (h ▸ List.mem_cons_self _ _)
        · exact .inr (List.mem_cons_of_mem _ h)
      · intro k hk
        rcases List.mem_cons.mp hk with h | h
        · exact h ▸ hle
        · exact hall k h
    · obtain ⟨c, hc, hmem, hle, hall⟩ := ih b
      refine ⟨c, ?_, ?_, hle, ?_⟩
      · simpa [List.foldl_cons, oldestStep, hlt] using hc
      · rcases hmem with h | h
        · exact .inl h
        · exact .inr (List.mem_cons_of_mem _ h)
      · intro k hk
        rcases List.mem_cons.mp hk with h | h
        · exact h ▸ le_trans hle (le_of_not_lt hlt)
        · exact hall k h

theorem selectOldestBy_eq_none {α : Type} (key : α → Int) (rows : List α) :
    selectOldestBy key rows = none ↔ rows = [] := by
  cases rows with
  | nil => simp [selectOldestBy]
  | cons r rows =>
    simp only [selectOldestBy, List.foldl_cons, oldestStep]
    obtain ⟨c, hc, -, -, -⟩ := oldestStep_some key rows r
    simp [hc]

theorem selectOldestBy_spec {α : Type} (key : α → Int) (rows : List α)
    (c : α) (h : selectOldestBy key rows = some c) :
    c ∈ rows ∧ ∀ k ∈ rows, key c ≤ key k := by
  cases rows with
  | nil => simp [selectOldestBy] at h
  | cons r rows =>
    simp only [selectOldestBy, List.foldl_cons, oldestStep] at h
    obtain ⟨c', hc', hmem, hle, hall⟩ := oldestStep_some key rows r
    rw [hc'] at h
    obtain rfl : c' = c := Option.some.inj h
    refine ⟨?_, ?_⟩
    · rcases hmem with h | h
      · exact h ▸ List.mem_cons_self _ _
      · exact List.mem_cons_of_mem _ h
    · intro k hk
      rcases List.mem_cons.mp hk with h | h
      · exact h ▸ hle
      · exact hall k h

/-! ## Row updates through the primary key -/

theorem setStatus_id (s : JobStatus) (j : JobModel) :
    (setStatus s j).id = j.id := rfl

theorem updateById_mem_of_mem {i : Nat} {f : JobModel → JobModel}
    {rows : List JobModel} {k : JobModel} (hk : k ∈ updateById i f rows) :
    ∃ r ∈ rows, k = if r.id = i then f r else r := by
  simp only [updateById, List.mem_map] at hk
  obtain ⟨r, hr, hkr⟩ := hk
  exact ⟨r, hr, hkr.symm⟩

/-! ## C1 — the claim operation -/

/-- C1: a claim selects at most one job row — one with the smallest
`created_at` among rows whose type is in the pool's job list, whose status is
`Pending` or `PendingRetry`, whose `retry_count < max_retries` and whose
`next_execution_at` is `NULL` or `≤ now` — marks it `Running`, and returns
the pre-update snapshot; with no such row it returns `none` and leaves the
table unchanged; and a subsequent claim (serialized by the row lock, embedded
as sequential composition) never returns the same row. -/
theorem claim_oldest_viable_job_spec (cfg : WorkerQueueConfig) (now : Int)
    (rows : List JobModel) :
    (∀ rows', claim_oldest_viable_job cfg now rows = (none, rows') →
       rows' = rows ∧ ∀ k ∈ rows, jobViable cfg now k = false) ∧
    (∀ j rows', claim_oldest_viable_job cfg now rows = (some j, rows') →
       j ∈ rows ∧ jobViable cfg now j = true ∧
       (j.status = .pending ∨ j.status = .pendingRetry) ∧
       (∀ k ∈ rows, jobViable cfg now k = true →
          j.created_at ≤ k.created_at) ∧
       rows' = updateById j.id (setStatus .running) rows ∧
       (∀ r ∈ rows', r.id = j.id → r.status = .running) ∧
       (∀ k rows'', claim_oldest_viable_job cfg now rows' = (some k, rows'') →
          k.id ≠ j.id)) := by
  constructor
  · intro rows' h
    cases hsel : selectOldest (rows.filter (jobViable cfg now)) with
    | none =>
      simp only [claim_oldest_viable_job, hsel] at h
      obtain ⟨-, rfl⟩ := Prod.mk.injEq .. ▸ h
      refine ⟨rfl, fun k hk => ?_⟩
      have hnil : rows.filter (jobViable cfg now) = [] :=
        (selectOldestBy_eq_none _ _).mp hsel
      by_contra hv
      have : k ∈ rows.filter (jobViable cfg now) :=
        List.mem_filter.mpr ⟨hk, eq_true_of_ne_false hv⟩
      simp [hnil] at this
    | some j => simp [claim_oldest_viable_job, hsel] at h
  · intro j rows' h
    cases hsel : selectOldest (rows.filter (jobViable cfg now)) with
    | none => simp [claim_oldest_viable_job, hsel] at h
    | some j₀ =>
      simp only [claim_oldest_viable_job, hsel, Prod.mk.injEq,
        Option.some.injEq] at h
      obtain ⟨hj0, hrows'⟩ := h
      subst hrows'
      cases hj0
      obtain ⟨hmem, hmin⟩ := selectOldestBy_spec _ _ _ hsel
      have hj : j ∈ rows := (List.mem_filter.mp hmem).1
      have hv : jobViable cfg now j = true := (List.mem_filter.mp hmem).2
      have hstatus : j.status = .pending ∨ j.status = .pendingRetry := by
        have hv' := hv
        simp only [jobViable, Bool.and_eq_true, Bool.or_eq_true,
          beq_iff_eq] at hv'
        exact hv'.1.1.2
      have hrun : ∀ r ∈ updateById j.id (setStatus .running) rows,
          r.id = j.id → r.status = .running := by
        intro r hr hid
        obtain ⟨r₀, hr₀, hr_eq⟩ := updateById_mem_of_mem hr
        by_cases hcase : r₀.id = j.id
        · simp only [hcase, if_pos] at hr_eq
          simp [hr_eq, setStatus]
        · simp only [hcase, if_neg, if_false] at hr_eq
          exact absurd (hr_eq ▸ hid) hcase
      refine ⟨hj, hv, hstatus, ?_, rfl, hrun, ?_⟩
      · intro k hk hkv
        exact hmin k (List.mem_filter.mpr ⟨hk, hkv⟩)
      · intro k rows'' h2 hid
        cases hsel2 : selectOldest
            ((updateById j.id (setStatus .running) rows).filter
              (jobViable cfg now)) with
        | none => simp [claim_oldest_viable_job, hsel2] at h2
        | some k₀ =>
          simp only [claim_oldest_viable_job, hsel2, Prod.mk.injEq,
            Option.some.injEq] at h2
          obtain ⟨hk0, -⟩ := h2
          cases hk0
          obtain ⟨hkmem, -⟩ := selectOldestBy_spec _ _ _ hsel2
          have hkrows : k ∈ updateById j.id (setStatus .running) rows :=
            (List.mem_filter.mp hkmem).1
          have hkv : jobViable cfg now k = true :=
            (List.mem_filter.mp hkmem).2
          have hkrun : k.status = .running := hrun k hkrows hid
          simp [jobViable, hkrun] at hkv

/-- Witness for `claim_oldest_viable_job_spec`: on `exampleTable` the claim
picks the older viable row `exampleJobOld`, marks it running, and a second
claim returns a different row. -/
theorem claim_oldest_viable_job_spec_witness :
    exampleJobOld ∈ exampleTable ∧
    jobViable exampleWorkerConfig 1000 exampleJobOld = true ∧
    (exampleJobOld.status = .pending ∨ exampleJobOld.status = .pendingRetry) ∧
    (∀ k ∈ exampleTable, jobViable exampleWorkerConfig 1000 k = true →
       exampleJobOld.created_at ≤ k.created_at) ∧
    (claim_oldest_viable_job exampleWorkerConfig 1000 exampleTable).2
        = updateById exampleJobOld.id (setStatus .running) exampleTable ∧
    (∀ r ∈ (claim_oldest_viable_job exampleWorkerConfig 1000 exampleTable).2,
       r.id = exampleJobOld.id → r.status = .running) ∧
    (∀ k rows'',
       claim_oldest_viable_job exampleWorkerConfig 1000
           (claim_oldest_viable_job exampleWorkerConfig 1000 exampleTable).2
         = (some k, rows'') →
       k.id ≠ exampleJobOld.id) :=
  (claim_oldest_viable_job_spec exampleWorkerConfig 1000 exampleTable).2
    exampleJobOld _ rfl

/-! ## C2 — post-execution transitions -/

/-- C2: after an execution attempt, a `Completed` result marks the job
`Completed`; otherwise `should_retry` holds exactly when the result is
`TryAgainLater` or `TimedOut` and the pre-attempt `retry_count` is below
`max_retries`; a retry sets `PendingRetry`, increments `retry_count` and sets
`next_execution_at`, while a non-retry — in particular every
`FailPermanently`, regardless of `retry_count` — sets the terminal status
`Failed`. -/
theorem update_job_after_execution_spec (j : JobModel) (res : JobResult)
    (t : Int) (cfg : WorkerQueueConfig) (now : Int) :
    (res = .completed →
       (update_job_after_execution j res t cfg now).2 = setStatus .completed j) ∧
    (shouldRetry res j.retry_count cfg.max_retries = true ↔
       ((∃ m, res = .failed (.tryAgainLater m)) ∨ res = .timedOut) ∧
         j.retry_count < cfg.max_retries) ∧
    (res ≠ .completed → shouldRetry res j.retry_count cfg.max_retries = true →
       (update_job_after_execution j res t cfg now).2 =
         { j with
             status := .pendingRetry
             retry_count := j.retry_count + 1
             next_execution_at :=
               some (calculate_next_retry_time now j.retry_count cfg) }) ∧
    (res ≠ .completed → shouldRetry res j.retry_count cfg.max_retries = false →
       (update_job_after_execution j res t cfg now).2.status = .failed) ∧
    (∀ m, res = .failed (.failPermanently m) →
       (update_job_after_execution j res t cfg now).2.status = .failed) := by
  rcases res with _ | e | _
  · refine ⟨fun _ => rfl, ?_, fun h => absurd rfl h, fun h => absurd rfl h,
      fun m hm => by simp at hm⟩
    simp [shouldRetry]
  · rcases e with m | m
    · refine ⟨fun h => by simp at h, ?_, ?_, ?_, fun m' _ => ?_⟩
      · simp [shouldRetry]
      · intro _ hr
        simp [shouldRetry] at hr
      · intro _ _
        simp [update_job_after_execution, handle_job_failure, shouldRetry,
          update_job_as_permanently_failed, setStatus]
      · simp [update_job_after_execution, handle_job_failure, shouldRetry,
          update_job_as_permanently_failed, setStatus]
    · refine ⟨fun h => by simp at h, ?_, ?_, ?_, fun m' hm => by simp at hm⟩
      · simp [shouldRetry]
      · intro _ hr
        simp only [shouldRetry] at hr
        simp [update_job_after_execution, handle_job_failure, shouldRetry, hr,
          update_job_for_retry]
      · intro _ hr
        simp only [shouldRetry] at hr
        simp [update_job_after_execution, handle_job_failure, shouldRetry, hr,
          update_job_as_permanently_failed, setStatus]
  · refine ⟨fun h => by simp at h, ?_, ?_, ?_, fun m' hm => by simp at hm⟩
    · simp [shouldRetry]
    · intro _ hr
      simp only [shouldRetry] at hr
      simp [update_job_after_execution, handle_job_failure, shouldRetry, hr,
        update_job_for_retry]
    · intro _ hr
      simp only [shouldRetry] at hr
      simp [update_job_after_execution, handle_job_failure, shouldRetry, hr,
        update_job_as_permanently_failed, setStatus]

/-- Witness for `update_job_after_execution_spec`: a timed-out attempt with
budget left goes to `PendingRetry` with the incremented count, and a
permanent failure goes to `Failed`. -/
theorem update_job_after_execution_spec_witness :
    (update_job_after_execution exampleJobOld .timedOut 5
        exampleWorkerConfig 1000).2 =
      { exampleJobOld with
          status := .pendingRetry
          retry_count := exampleJobOld.retry_count + 1
          next_execution_at :=
            some (calculate_next_retry_time 1000 exampleJobOld.retry_count
              exampleWorkerConfig) } ∧
    (update_job_after_execution exampleJobOld
        (.failed (.failPermanently "boom")) 5 exampleWorkerConfig 1000).2.status
      = .failed :=
  ⟨(update_job_after_execution_spec exampleJobOld .timedOut 5
      exampleWorkerConfig 1000).2.2.1 (by decide) (by decide),
   (update_job_after_execution_spec exampleJobOld
      (.failed (.failPermanently "boom")) 5 exampleWorkerConfig 1000).2.2.2.2
      "boom" rfl⟩

/-! ## C3 — retry backoff -/

/-- Counterexample to C3's monotonicity as stated: with
`retry_backoff_multiplier = 0` (accepted by the configuration) the delay for
`k = 0` is `base × 0^0 = base` (here 1 s) while the delay for `k = 1` is 0 —
the successive delays strictly decrease. -/
theorem retry_backoff_counterexample :
    calculate_next_retry_time 0 1 zeroMultiplierConfig - 0
      < calculate_next_retry_time 0 0 zeroMultiplierConfig - 0 := by
  norm_num [calculate_next_retry_time, zeroMultiplierConfig]

theorem calculate_next_retry_time_formula (cfg : WorkerQueueConfig)
    (now : Int) (k : Nat)
    (h : cfg.base_retry_delay_seconds * cfg.retry_backoff_multiplier ^ k
      < 2 ^ 63) :
    calculate_next_retry_time now (k : Int) cfg
      = now + 1000 *
        ((cfg.base_retry_delay_seconds * cfg.retry_backoff_multiplier ^ k
          : Nat) : Int) := by
  have hexp : (if 0 ≤ (k : Int) then (k : Int).toNat else 5) = k := by
    simp
  have hds : cfg.base_retry_delay_seconds *
      (cfg.retry_backoff_multiplier ^ k % 2 ^ 64) % 2 ^ 64
      = cfg.base_retry_delay_seconds * cfg.retry_backoff_multiplier ^ k := by
    rcases Nat.eq_zero_or_pos cfg.base_retry_delay_seconds with hb | hb
    · simp [hb]
    · have hppow : cfg.retry_backoff_multiplier ^ k < 2 ^ 64 := by
        have h1 : cfg.retry_backoff_multiplier ^ k
            ≤ cfg.base_retry_delay_seconds * cfg.retry_backoff_multiplier ^ k :=
          Nat.le_mul_of_pos_left _ hb
        omega
      rw [Nat.mod_eq_of_lt hppow, Nat.mod_eq_of_lt (by omega)]
  simp only [calculate_next_retry_time, hexp, hds]
  rw [if_pos (show cfg.base_retry_delay_seconds *
      cfg.retry_backoff_multiplier ^ k ≤ 2 ^ 63 - 1 by omega)]

/-- C3: a job scheduled for retry gets
`next_execution_at = calculate_next_retry_time now retry_count cfg` computed
from the pre-increment retry count `k`, the delay equals
`base_retry_delay_seconds × multiplier^k` seconds (1000·ms), successive
delays are non-decreasing, and with `base = 1`, `multiplier = 2` the delays
for `k = 0, 1, 2` are 1 s, 2 s, 4 s.  The machine-arithmetic side conditions
(`multiplier ≥ 1`, no `u64` overflow up to exponent `k + 1`) delimit where
the `u64` computation agrees with the mathematical formula. -/
theorem retry_backoff_spec (cfg : WorkerQueueConfig) (now : Int) (k : Nat)
    (hov : cfg.base_retry_delay_seconds *
      cfg.retry_backoff_multiplier ^ (k + 1) < 2 ^ 63)
    (hmult : 1 ≤ cfg.retry_backoff_multiplier) :
    calculate_next_retry_time now (k : Int) cfg - now
      = 1000 *
        ((cfg.base_retry_delay_seconds * cfg.retry_backoff_multiplier ^ k
          : Nat) : Int) ∧
    calculate_next_retry_time now (k : Int) cfg - now
      ≤ calculate_next_retry_time now ((k : Int) + 1) cfg - now ∧
    (∀ (j : JobModel) (res : JobResult),
       shouldRetry res j.retry_count cfg.max_retries = true →
       (handle_job_failure j res j.retry_count cfg now).next_execution_at
         = some (calculate_next_retry_time now j.retry_count cfg) ∧
       (handle_job_failure j res j.retry_count cfg now).retry_count
         = j.retry_count + 1) ∧
    (∀ n : Int,
       calculate_next_retry_time n 0 exampleWorkerConfig - n = 1000 ∧
       calculate_next_retry_time n 1 exampleWorkerConfig - n = 2000 ∧
       calculate_next_retry_time n 2 exampleWorkerConfig - n = 4000) := by
  have hk : cfg.base_retry_delay_seconds * cfg.retry_backoff_multiplier ^ k
      < 2 ^ 63 := by
    have hstep : cfg.base_retry_delay_seconds *
        cfg.retry_backoff_multiplier ^ k
        ≤ cfg.base_retry_delay_seconds *
          cfg.retry_backoff_multiplier ^ (k + 1) := by
      have := Nat.pow_le_pow_right hmult (Nat.le_succ k)
      exact Nat.mul_le_mul_left _ this
    omega
  have h1 := calculate_next_retry_time_formula cfg now k hk
  have hcast : ((k : Int) + 1) = ((k + 1 : Nat) : Int) := by push_cast; ring
  have h2 := calculate_next_retry_time_formula cfg now (k + 1) hov
  refine ⟨by rw [h1]; ring, ?_, ?_, ?_⟩
  · rw [h1, hcast, h2]
    have hpow : cfg.base_retry_delay_seconds * cfg.retry_backoff_multiplier ^ k
        ≤ cfg.base_retry_delay_seconds *
          cfg.retry_backoff_multiplier ^ (k + 1) :=
      Nat.mul_le_mul_left _ (Nat.pow_le_pow_right hmult (Nat.le_succ k))
    have : ((cfg.base_retry_delay_seconds *
        cfg.retry_backoff_multiplier ^ k : Nat) : Int)
        ≤ ((cfg.base_retry_delay_seconds *
          cfg.retry_backoff_multiplier ^ (k + 1) : Nat) : Int) := by
      exact_mod_cast hpow
    omega
  · intro j res hr
    simp [handle_job_failure, hr, update_job_for_retry]
  · intro n
    have e0 := calculate_next_retry_time_formula exampleWorkerConfig n 0
      (by norm_num [exampleWorkerConfig])
    have e1 := calculate_next_retry_time_formula exampleWorkerConfig n 1
      (by norm_num [exampleWorkerConfig])
    have e2 := calculate_next_retry_time_formula exampleWorkerConfig n 2
      (by norm_num [exampleWorkerConfig])
    norm_num [exampleWorkerConfig] at e0 e1 e2 ⊢
    exact ⟨by rw [e0]; omega, by rw [e1]; omega, by rw [e2]; omega⟩

/-- Witness for `retry_backoff_spec` at `base = 1`, `multiplier = 2`,
`k = 1`. -/
theorem retry_backoff_spec_witness :
    calculate_next_retry_time 500 ((1 : Nat) : Int) exampleWorkerConfig - 500
      = 1000 *
        ((exampleWorkerConfig.base_retry_delay_seconds *
          exampleWorkerConfig.retry_backoff_multiplier ^ 1 : Nat) : Int) ∧
    calculate_next_retry_time 500 ((1 : Nat) : Int) exampleWorkerConfig - 500
      ≤ calculate_next_retry_time 500 (((1 : Nat) : Int) + 1)
          exampleWorkerConfig - 500 ∧
    (∀ (j : JobModel) (res : JobResult),
       shouldRetry res j.retry_count exampleWorkerConfig.max_retries = true →
       (handle_job_failure j res j.retry_count exampleWorkerConfig
           500).next_execution_at
         = some (calculate_next_retry_time 500 j.retry_count
             exampleWorkerConfig) ∧
       (handle_job_failure j res j.retry_count exampleWorkerConfig
           500).retry_count
         = j.retry_count + 1) ∧
    (∀ n : Int,
       calculate_next_retry_time n 0 exampleWorkerConfig - n = 1000 ∧
       calculate_next_retry_time n 1 exampleWorkerConfig - n = 2000 ∧
       calculate_next_retry_time n 2 exampleWorkerConfig - n = 4000) :=
  retry_backoff_spec exampleWorkerConfig 500 1
    (by norm_num [exampleWorkerConfig]) (by norm_num [exampleWorkerConfig])

/-! ## C4 — stuck-job recovery -/

theorem foldl_updateById_setStatus (s : JobStatus) (S : List JobModel) :
    ∀ rows : List JobModel,
      S.foldl (fun acc j => updateById j.id (setStatus s) acc) rows
        = rows.map (fun r =>
            if r.id ∈ S.map JobModel.id then setStatus s r else r) := by
  induction S with
  | nil =>
    intro rows
    simp
  | cons x S ih =>
    intro rows
    rw [List.foldl_cons, ih]
    simp only [updateById, List.map_map]
    apply List.map_congr_left
    intro r _
    by_cases hx : r.id = x.id
    · have hid : (setStatus s r).id = r.id := rfl
      simp only [Function.comp, hx, if_pos rfl, List.map_cons, List.mem_cons,
        true_or, if_pos, hid]
      by_cases hmem : x.id ∈ S.map JobModel.id
      · simp [hmem, setStatus]
      · simp [hmem]
    · simp only [Function.comp, if_neg hx, List.map_cons, List.mem_cons]
      by_cases hmem : r.id ∈ S.map JobModel.id
      · simp [hmem, hx]
      · simp [hmem, hx]

theorem stuck_ids_mem_iff (cfg : WorkerQueueConfig) (now : Int)
    (rows : List JobModel) (hnodup : (rows.map JobModel.id).Nodup)
    (r : JobModel) (hr : r ∈ rows) :
    r.id ∈ ((rows.filter (jobStuck cfg now)).map JobModel.id)
      ↔ jobStuck cfg now r = true := by
  constructor
  · intro hmem
    obtain ⟨sj, hsj, hid⟩ := List.mem_map.mp hmem
    obtain ⟨hsrows, hstuck⟩ := List.mem_filter.mp hsj
    have : sj = r := List.inj_on_of_nodup_map hnodup hsrows hr hid
    exact this ▸ hstuck
  · intro hstuck
    exact List.mem_map.mpr ⟨r, List.mem_filter.mpr ⟨hr, hstuck⟩, rfl⟩

/-- C4: a recovery pass over a pool inserts, for each row with status
`Running`, type in the pool's job list and `updated_at ≤ now − 2 ×
job_timeout`, exactly one `JobExecution` row with result `TimedOut`,
`started_at` the row's `updated_at`, `finished_at = now` and a failure
reason, and resets that job to `Pending` with `retry_count` unchanged; rows
not meeting all three conditions are untouched. -/
theorem recover_stuck_jobs_for_pool_spec (cfg : WorkerQueueConfig) (now : Int)
    (rows : List JobModel) (hnodup : (rows.map JobModel.id).Nodup) :
    (recover_stuck_jobs_for_pool cfg now rows).1
      = (rows.filter (jobStuck cfg now)).map
          (fun j => recoveryExecutionRow j (cfg.job_timeout * 2) now) ∧
    (recover_stuck_jobs_for_pool cfg now rows).2
      = rows.map (fun j =>
          if jobStuck cfg now j then setStatus .pending j else j) ∧
    (∀ j ∈ rows, jobStuck cfg now j = true →
       (recoveryExecutionRow j (cfg.job_timeout * 2) now).result = .timedOut ∧
       (recoveryExecutionRow j (cfg.job_timeout * 2) now).started_at
         = j.updated_at ∧
       (recoveryExecutionRow j (cfg.job_timeout * 2) now).finished_at = now ∧
       (recoveryExecutionRow j
           (cfg.job_timeout * 2) now).failure_reason.isSome = true ∧
       (setStatus .pending j).retry_count = j.retry_count ∧
       (setStatus .pending j).status = .pending) ∧
    (∀ j ∈ rows, jobStuck cfg now j = false →
       j ∈ (recover_stuck_jobs_for_pool cfg now rows).2) := by
  have htable : (recover_stuck_jobs_for_pool cfg now rows).2
      = rows.map (fun j =>
          if jobStuck cfg now j then setStatus .pending j else j) := by
    show (rows.filter (jobStuck cfg now)).foldl
        (fun acc j => updateById j.id (setStatus .pending) acc) rows = _
    rw [foldl_updateById_setStatus]
    apply List.map_congr_left
    intro r hr
    by_cases hstuck : jobStuck cfg now r = true
    · rw [if_pos ((stuck_ids_mem_iff cfg now rows hnodup r hr).mpr hstuck),
        if_pos hstuck]
    · rw [if_neg (fun hmem =>
          hstuck ((stuck_ids_mem_iff cfg now rows hnodup r hr).mp hmem)),
        if_neg hstuck]
  refine ⟨rfl, htable, ?_, ?_⟩
  · intro j _ _
    exact ⟨rfl, rfl, rfl, rfl, rfl, rfl⟩
  · intro j hj hstuck
    rw [htable]
    have : (if jobStuck cfg now j then setStatus .pending j else j) = j := by
      simp [hstuck]
    exact this ▸ List.mem_map_of_mem _ hj

/-- Witness for `recover_stuck_jobs_for_pool_spec` on a two-row table with a
stuck running job at `now = 700000` ms (the pool timeout is 300 s). -/
theorem recover_stuck_jobs_for_pool_spec_witness :
    (recover_stuck_jobs_for_pool exampleWorkerConfig 700000
        [exampleJobStuck, exampleJobNew]).1
      = ([exampleJobStuck, exampleJobNew].filter
          (jobStuck exampleWorkerConfig 700000)).map
          (fun j => recoveryExecutionRow j
            (exampleWorkerConfig.job_timeout * 2) 700000) ∧
    (recover_stuck_jobs_for_pool exampleWorkerConfig 700000
        [exampleJobStuck, exampleJobNew]).2
      = [exampleJobStuck, exampleJobNew].map (fun j =>
          if jobStuck exampleWorkerConfig 700000 j
          then setStatus .pending j else j) ∧
    (∀ j ∈ [exampleJobStuck, exampleJobNew],
       jobStuck exampleWorkerConfig 700000 j = true →
       (recoveryExecutionRow j (exampleWorkerConfig.job_timeout * 2)
           700000).result = .timedOut ∧
       (recoveryExecutionRow j (exampleWorkerConfig.job_timeout * 2)
           700000).started_at = j.updated_at ∧
       (recoveryExecutionRow j (exampleWorkerConfig.job_timeout * 2)
           700000).finished_at = 700000 ∧
       (recoveryExecutionRow j (exampleWorkerConfig.job_timeout * 2)
           700000).failure_reason.isSome = true ∧
       (setStatus .pending j).retry_count = j.retry_count ∧
       (setStatus .pending j).status = .pending) ∧
    (∀ j ∈ [exampleJobStuck, exampleJobNew],
       jobStuck exampleWorkerConfig 700000 j = false →
       j ∈ (recover_stuck_jobs_for_pool exampleWorkerConfig 700000
         [exampleJobStuck, exampleJobNew]).2) :=
  recover_stuck_jobs_for_pool_spec exampleWorkerConfig 700000
    [exampleJobStuck, exampleJobNew] (by decide)

/-! ## C8 — retention cleanup -/

theorem length_filter_lt_of_mem {α : Type} {l : List α} {q : α → Bool}
    {a : α} (ha : a ∈ l) (hqa : q a = false) :
    (l.filter q).length < l.length := by
  induction l with
  | nil => cases ha
  | cons x l ih =>
    rcases List.mem_cons.mp ha with rfl | ha'
    · have hle := List.length_filter_le q l
      simp only [List.filter_cons, hqa, Bool.false_eq_true, if_false,
        List.length_cons]
      omega
    · by_cases hx : q x
      · simp only [List.filter_cons, hx, if_pos, List.length_cons]
        exact Nat.succ_lt_succ (ih ha')
      · simp only [List.filter_cons, hx, Bool.false_eq_true, if_false,
          List.length_cons]
        exact Nat.lt_succ_of_lt (ih ha')

theorem cleanupBatch_mem {rows : List JobModel} {statuses : List JobStatus}
    {cutoff_time : Int} {batch_size : Nat} {b : JobModel}
    (hb : b ∈ cleanupBatch rows statuses cutoff_time batch_size) :
    b ∈ rows ∧
      (statuses.contains b.status && decide (b.created_at ≤ cutoff_time))
        = true := by
  have hms : b ∈ (rows.filter fun j =>
      statuses.contains j.status && decide (j.created_at ≤ cutoff_time)) := by
    have := (List.take_sublist _ _).mem hb
    exact List.mem_mergeSort.mp this
  exact ⟨(List.mem_filter.mp hms).1, (List.mem_filter.mp hms).2⟩

theorem cleanupLoop_spec (statuses : List JobStatus) (cutoff_time : Int)
    (batch_size : Nat) (hbs : 1 ≤ batch_size) :
    ∀ (fuel : Nat) (rows : List JobModel), rows.length ≤ fuel →
      (rows.map JobModel.id).Nodup →
      cleanupLoop statuses cutoff_time batch_size fuel rows
        = rows.filter (fun j =>
            !(statuses.contains j.status
              && decide (j.created_at ≤ cutoff_time))) := by
  intro fuel
  induction fuel with
  | zero =>
    intro rows hlen _
    have : rows = [] := List.eq_nil_of_length_eq_zero (Nat.le_zero.mp hlen)
    subst this
    rfl
  | succ fuel ih =>
    intro rows hlen hnodup
    show (if (cleanupBatch rows statuses cutoff_time batch_size).isEmpty
        then rows
        else cleanupLoop statuses cutoff_time batch_size fuel
          (rows.filter fun j =>
            !((cleanupBatch rows statuses cutoff_time
                batch_size).map JobModel.id).contains j.id)) = _
    by_cases hempty : (cleanupBatch rows statuses cutoff_time
        batch_size).isEmpty
    · rw [if_pos hempty]
      have hnil : (rows.filter fun j =>
          statuses.contains j.status && decide (j.created_at ≤ cutoff_time))
            = [] := by
        have := List.isEmpty_iff.mp hempty
        rcases List.take_eq_nil_iff.mp this with h0 | hsort
        · omega
        · have := congrArg List.length hsort
          simp only [List.length_mergeSort, List.length_nil] at this
          exact List.eq_nil_of_length_eq_zero this
      have hall : ∀ j ∈ rows,
          (statuses.contains j.status && decide (j.created_at ≤ cutoff_time))
            = false := by
        intro j hj
        by_contra hne
        have : j ∈ (rows.filter fun j =>
            statuses.contains j.status
              && decide (j.created_at ≤ cutoff_time)) :=
          List.mem_filter.mpr ⟨hj, eq_true_of_ne_false hne⟩
        rw [hnil] at this
        simp at this
      symm
      apply List.filter_eq_self.mpr
      intro j hj
      simp only [Bool.not_eq_true']
      exact hall j hj
    · rw [if_neg hempty]
      obtain ⟨b, hb⟩ := List.exists_mem_of_ne_nil
        (cleanupBatch rows statuses cutoff_time batch_size)
        (fun h => hempty (by simp [h]))
      obtain ⟨hbrows, hbp⟩ := cleanupBatch_mem hb
      have hbid : b.id ∈ (cleanupBatch rows statuses cutoff_time
          batch_size).map JobModel.id := List.mem_map_of_mem _ hb
      have hbrm : (!((cleanupBatch rows statuses cutoff_time
          batch_size).map JobModel.id).contains b.id) = false := by
        simp only [List.elem_iff.mpr hbid, Bool.not_true]
      have hlt := length_filter_lt_of_mem
        (q := fun j => !((cleanupBatch rows statuses cutoff_time
          batch_size).map JobModel.id).contains j.id) hbrows hbrm
      have hsub : List.Sublist
          ((rows.filter fun j =>
            !((cleanupBatch rows statuses cutoff_time
                batch_size).map JobModel.id).contains j.id).map JobModel.id)
          (rows.map JobModel.id) :=
        (List.filter_sublist rows).map JobModel.id
      have hnodup' : ((rows.filter fun j =>
          !((cleanupBatch rows statuses cutoff_time
              batch_size).map JobModel.id).contains j.id).map
            JobModel.id).Nodup :=
        List.Nodup.sublist hsub hnodup
      rw [ih _ (by omega) hnodup', List.filter_filter]
      apply List.filter_congr
      intro j hj
      by_cases hp : (statuses.contains j.status
          && decide (j.created_at ≤ cutoff_time)) = true
      · rw [hp]
        simp
      · have hp' : (statuses.contains j.status
            && decide (j.created_at ≤ cutoff_time)) = false :=
          eq_false_of_ne_true hp
        have hnotin : ¬ j.id ∈ (cleanupBatch rows statuses cutoff_time
            batch_size).map JobModel.id := by
          intro hmem
          obtain ⟨b', hb', hid⟩ := List.mem_map.mp hmem
          obtain ⟨hb'rows, hb'p⟩ := cleanupBatch_mem hb'
          have : b' = j := List.inj_on_of_nodup_map hnodup hb'rows hj hid
          exact hp (this ▸ hb'p)
        have hcf : ((cleanupBatch rows statuses cutoff_time
            batch_size).map JobModel.id).contains j.id = false := by
          by_contra hc
          exact hnotin (List.elem_iff.mp (eq_true_of_ne_false hc))
        rw [hp', hcf]
        simp

theorem cleanup_jobs_by_status_spec (rows : List JobModel)
    (statuses : List JobStatus) (cutoff_time : Int) (batch_size : Nat)
    (hbs : 1 ≤ batch_size) (hnodup : (rows.map JobModel.id).Nodup) :
    cleanup_jobs_by_status rows statuses cutoff_time batch_size
      = rows.filter (fun j =>
          !(statuses.contains j.status
            && decide (j.created_at ≤ cutoff_time))) :=
  cleanupLoop_spec statuses cutoff_time batch_size hbs _ rows
    (Nat.le_succ _) hnodup

/-- C8: one cleanup pass deletes exactly the `Completed` rows with
`created_at ≤ now − completed_retention_seconds` and the `Failed` rows with
`created_at ≤ now − failed_retention_seconds` (oldest-first, in batches of at
most `batch_size`); `Pending`, `PendingRetry` and `Running` rows are never
deleted, regardless of age. -/
theorem cleanup_old_jobs_spec (config : CleanupConfig) (now : Int)
    (rows : List JobModel) (hnodup : (rows.map JobModel.id).Nodup)
    (hbs : 1 ≤ config.batch_size)
    (hcr : config.completed_retention_seconds ≤ 2 ^ 63 - 1)
    (hfr : config.failed_retention_seconds ≤ 2 ^ 63 - 1) :
    cleanup_old_jobs config now rows
      = rows.filter (fun j =>
          !((j.status == .completed) && decide (j.created_at ≤
              now - 1000 * (config.completed_retention_seconds : Int)))
          && !((j.status == .failed) && decide (j.created_at ≤
              now - 1000 * (config.failed_retention_seconds : Int)))) ∧
    (∀ j ∈ rows,
       (j.status = .pending ∨ j.status = .pendingRetry ∨
         j.status = .running) →
       j ∈ cleanup_old_jobs config now rows) := by
  have hro1 : retentionOr config.completed_retention_seconds 7200
      = (config.completed_retention_seconds : Int) := if_pos hcr
  have hro2 : retentionOr config.failed_retention_seconds 172800
      = (config.failed_retention_seconds : Int) := if_pos hfr
  have h1 := cleanup_jobs_by_status_spec rows [.completed]
    (now - 1000 * retentionOr config.completed_retention_seconds 7200)
    config.batch_size hbs hnodup
  have hnodup2 : (((rows.filter fun j =>
      !(([JobStatus.completed] : List JobStatus).contains j.status
        && decide (j.created_at ≤
          now - 1000 * retentionOr config.completed_retention_seconds 7200)))
        ).map JobModel.id).Nodup :=
    List.Nodup.sublist ((List.filter_sublist rows).map JobModel.id) hnodup
  have h2 := cleanup_jobs_by_status_spec
    (rows.filter fun j =>
      !(([JobStatus.completed] : List JobStatus).contains j.status
        && decide (j.created_at ≤
          now - 1000 * retentionOr config.completed_retention_seconds 7200)))
    [.failed]
    (now - 1000 * retentionOr config.failed_retention_seconds 172800)
    config.batch_size hbs hnodup2
  have hmain : cleanup_old_jobs config now rows
      = rows.filter (fun j =>
          !((j.status == .completed) && decide (j.created_at ≤
              now - 1000 * (config.completed_retention_seconds : Int)))
          && !((j.status == .failed) && decide (j.created_at ≤
              now - 1000 * (config.failed_retention_seconds : Int)))) := by
    show cleanup_jobs_by_status
        (cleanup_jobs_by_status rows [.completed] _ config.batch_size)
        [.failed] _ config.batch_size = _
    rw [h1, h2, List.filter_filter]
    rw [hro1, hro2]
    apply List.filter_congr
    intro j _
    cases j.status <;> simp
  refine ⟨hmain, ?_⟩
  intro j hj hstatus
  rw [hmain]
  apply List.mem_filter.mpr
  refine ⟨hj, ?_⟩
  rcases hstatus with h | h | h <;> rw [h] <;> simp

/-- Witness for `cleanup_old_jobs_spec`: on a table holding an old completed
job and two live jobs, cleanup at `now = 10^10` ms deletes exactly the old
completed row. -/
theorem cleanup_old_jobs_spec_witness :
    cleanup_old_jobs exampleCleanupConfig 10000000000
        [exampleJobDone, exampleJobNew, exampleJobOld]
      = [exampleJobDone, exampleJobNew, exampleJobOld].filter (fun j =>
          !((j.status == .completed) && decide (j.created_at ≤
              10000000000 - 1000 *
                (exampleCleanupConfig.completed_retention_seconds : Int)))
          && !((j.status == .failed) && decide (j.created_at ≤
              10000000000 - 1000 *
                (exampleCleanupConfig.failed_retention_seconds : Int)))) ∧
    (∀ j ∈ [exampleJobDone, exampleJobNew, exampleJobOld],
       (j.status = .pending ∨ j.status = .pendingRetry ∨
         j.status = .running) →
       j ∈ cleanup_old_jobs exampleCleanupConfig 10000000000
         [exampleJobDone, exampleJobNew, exampleJobOld]) :=
  cleanup_old_jobs_spec exampleCleanupConfig 10000000000
    [exampleJobDone, exampleJobNew, exampleJobOld] (by decide)
    (by decide) (by decide) (by decide)

/-! ## C5 — rate-limit admission -/

theorem find?_eq_some_of_first {α : Type} (p : α → Bool) :
    ∀ (l : List α) (i : Nat) (a : α), l[i]? = some a → p a = true →
      (∀ j b, j < i → l[j]? = some b → p b = false) →
      l.find? p = some a := by
  intro l
  induction l with
  | nil =>
    intro i a h
    simp at h
  | cons x l ih =>
    intro i a hget hpa hbefore
    cases i with
    | zero =>
      obtain rfl : x = a := by simpa using hget
      exact List.find?_cons_of_pos _ hpa
    | succ i =>
      have hx : p x = false := hbefore 0 x (Nat.succ_pos i) (by simp)
      rw [List.find?_cons_of_neg _ (by simp [hx])]
      exact ih i a (by simpa using hget) hpa
        (fun j b hj hb => hbefore (j + 1) b (Nat.succ_lt_succ hj)
          (by simpa using hb))

/-- C5: for an unblocked client the tiers are evaluated in configured
order against the pruned request log; at the first tier whose window already
holds at least `max_requests` entries, `violations` is incremented, the
penalty is `window_secs × multiplier^(violations−1)`, `blocked_until` becomes
`now + penalty` and the request is rejected with retry-after `penalty`; if no
tier is exceeded, `now` is appended and the request is allowed.  With tiers
`[(5,2),(60,100)]` and multiplier 2, the third request within one second is
rejected with retry-after 5 s (scenario S6). -/
theorem check_rate_limit_spec (limit : ActionRateLimit) (mult : ℚ)
    (c : ClientState) (now : ℚ) (hnb : c.is_blocked now = none) :
    (∀ (i : Nat) (tier : RateLimitTier),
       limit.tiers[i]? = some tier →
       tier.max_requests ≤ countInWindow
         (cleanupExpired c.requests now (maxWindowSecs limit : ℚ)) now
         tier.window_secs →
       (∀ j tj, j < i → limit.tiers[j]? = some tj →
          countInWindow
            (cleanupExpired c.requests now (maxWindowSecs limit : ℚ)) now
            tj.window_secs < tj.max_requests) →
       check_rate_limit true limit mult c now
         = ({ requests := cleanupExpired c.requests now (maxWindowSecs limit : ℚ)
              violations := c.violations + 1
              blocked_until := some (now +
                (tier.window_secs : ℚ) * mult ^ c.violations) },
            some ((tier.window_secs : ℚ) * mult ^ c.violations))) ∧
    ((∀ tier ∈ limit.tiers,
        countInWindow
          (cleanupExpired c.requests now (maxWindowSecs limit : ℚ)) now
          tier.window_secs < tier.max_requests) →
      check_rate_limit true limit mult c now
        = ({ c with requests :=
              cleanupExpired c.requests now (maxWindowSecs limit : ℚ)
                ++ [now] },
           none)) ∧
    (runChecks true 2 s6Checks ClientState.new).2 = [none, none, some 5] := by
  refine ⟨?_, ?_, ?_⟩
  · intro i tier hget hexceed hbefore
    have hfind : limit.tiers.find?
        (fun tier => tier.max_requests ≤ countInWindow
          (cleanupExpired c.requests now (maxWindowSecs limit : ℚ)) now
          tier.window_secs) = some tier := by
      apply find?_eq_some_of_first _ _ i tier hget
      · exact decide_eq_true hexceed
      · intro j b hj hb
        exact decide_eq_false (Nat.not_le.mpr (hbefore j b hj hb))
    simp only [check_rate_limit, Bool.not_true, Bool.false_eq_true, if_false,
      hnb, ClientState.record_request, hfind, Nat.add_sub_cancel]
  · intro hok
    have hfind : limit.tiers.find?
        (fun tier => tier.max_requests ≤ countInWindow
          (cleanupExpired c.requests now (maxWindowSecs limit : ℚ)) now
          tier.window_secs) = none := by
      apply List.find?_eq_none.mpr
      intro tier htier
      simp only [decide_eq_true_eq, Nat.not_le]
      exact hok tier htier
    simp only [check_rate_limit, Bool.not_true, Bool.false_eq_true, if_false,
      hnb, ClientState.record_request, hfind]
  · norm_num [s6Checks, s6Limit, runChecks, check_rate_limit, ClientState.new,
      ClientState.is_blocked, ClientState.record_request, cleanupExpired,
      countInWindow, maxWindowSecs, List.find?, List.filter_cons]

/-- Witness for `check_rate_limit_spec`: the third S6 request (client already
holding instants 0 and 1/2, check at instant 1) is rejected by the first tier
with penalty `5 × 2^0 = 5`. -/
theorem check_rate_limit_spec_witness :
    check_rate_limit true s6Limit 2 s6ThirdState 1
      = ({ requests := cleanupExpired s6ThirdState.requests 1
             (maxWindowSecs s6Limit : ℚ)
           violations := s6ThirdState.violations + 1
           blocked_until := some (1 +
             (((5 : Nat) : ℚ)) * 2 ^ s6ThirdState.violations) },
         some ((((5 : Nat) : ℚ)) * 2 ^ s6ThirdState.violations)) :=
  (check_rate_limit_spec s6Limit 2 s6ThirdState 1 rfl).1 0 ⟨5, 2⟩ rfl
    (by norm_num [s6ThirdState, s6Limit, cleanupExpired, countInWindow,
      maxWindowSecs])
    (fun j tj hj _ => absurd hj (Nat.not_lt_zero j))

/-! ## C10 — blocked clients -/

/-- C10: while `blocked_until` lies in the future an admission check
rejects with retry-after the remaining block duration and leaves the client
state entirely unchanged: nothing is appended to the request log,
`violations` is not incremented and `blocked_until` is not extended. -/
theorem check_rate_limit_blocked (limit : ActionRateLimit) (mult : ℚ)
    (c : ClientState) (now b : ℚ) (hb : c.blocked_until = some b)
    (hn : now < b) :
    check_rate_limit true limit mult c now = (c, some (b - now)) ∧
    (check_rate_limit true limit mult c now).1.requests = c.requests ∧
    (check_rate_limit true limit mult c now).1.violations = c.violations ∧
    (check_rate_limit true limit mult c now).1.blocked_until
      = c.blocked_until := by
  have hblocked : c.is_blocked now = some (b - now) := by
    simp [ClientState.is_blocked, hb, hn]
  have hmain : check_rate_limit true limit mult c now = (c, some (b - now)) := by
    simp [check_rate_limit, hblocked]
  exact ⟨hmain, by rw [hmain], by rw [hmain], by rw [hmain]⟩

/-- Witness for `check_rate_limit_blocked`: a client blocked until instant 10
checked at instant 4 is rejected with retry-after 6 and unchanged state. -/
theorem check_rate_limit_blocked_witness :
    check_rate_limit true s6Limit 2
        { requests := [], violations := 1, blocked_until := some 10 } 4
      = ({ requests := [], violations := 1, blocked_until := some 10 },
         some (10 - 4)) ∧
    (check_rate_limit true s6Limit 2
        { requests := [], violations := 1, blocked_until := some 10 } 4).1.requests
      = ({ requests := [], violations := 1, blocked_until := some 10 }
          : ClientState).requests ∧
    (check_rate_limit true s6Limit 2
        { requests := [], violations := 1, blocked_until := some 10 }
          4).1.violations
      = ({ requests := [], violations := 1, blocked_until := some 10 }
          : ClientState).violations ∧
    (check_rate_limit true s6Limit 2
        { requests := [], violations := 1, blocked_until := some 10 }
          4).1.blocked_until
      = ({ requests := [], violations := 1, blocked_until := some 10 }
          : ClientState).blocked_until :=
  check_rate_limit_blocked s6Limit 2
    { requests := [], violations := 1, blocked_until := some 10 } 4 10 rfl
    (by norm_num)

/-! ## C6 — tier bound for accepted requests -/

/-- Counterexample to C6 as stated: the per-client request log is shared
between actions and pruned to the *current* action's longest window.  A
check for an action with a short window erases the history an action with a
longer window depends on: interleaving five accepted `slowLimit` (5 per 60 s)
requests, one `fastLimit` (2 per 5 s) request and one more `slowLimit`
request yields seven accepted requests, all inside one 60-second window of
the `(60, 5)` tier. -/
theorem rate_limit_tier_bound_counterexample :
    (⟨60, 5⟩ : RateLimitTier) ∈ slowLimit.tiers ∧
    (runChecks true 2 mixedActionChecks ClientState.new).2
      = [none, none, none, none, none, none, none] ∧
    acceptedTimes true 2 mixedActionChecks ClientState.new
      = [0, 1, 2, 3, 4, 10, 11] ∧
    (⟨5, 2⟩ : RateLimitTier).max_requests
        < ([(0 : ℚ), 1, 2, 3, 4, 10, 11].countP
            (fun x => decide ((11 : ℚ) - 60 < x) && decide (x ≤ 11))) ∧
    (⟨60, 5⟩ : RateLimitTier).max_requests
        < ([(0 : ℚ), 1, 2, 3, 4, 10, 11].countP
            (fun x => decide ((11 : ℚ) - 60 < x) && decide (x ≤ 11))) := by
  refine ⟨by simp [slowLimit], ?_, ?_, ?_, ?_⟩ <;>
    norm_num [mixedActionChecks, slowLimit, fastLimit, runChecks,
      acceptedTimes, check_rate_limit, ClientState.new,
      ClientState.is_blocked, ClientState.record_request, cleanupExpired,
      countInWindow, maxWindowSecs, List.find?, List.filter_cons,
      List.countP_cons]

theorem foldl_max_le (l : List Nat) : ∀ acc : Nat,
    acc ≤ l.foldl max acc ∧ ∀ x ∈ l, x ≤ l.foldl max acc := by
  induction l with
  | nil =>
    intro acc
    simp
  | cons y l ih =>
    intro acc
    refine ⟨le_trans (Nat.le_max_left acc y) (ih (max acc y)).1, ?_⟩
    intro x hx
    rcases List.mem_cons.mp hx with rfl | h
    · exact le_trans (Nat.le_max_right acc x) (ih (max acc x)).1
    · exact (ih (max acc y)).2 x h

theorem tier_window_le_maxWindowSecs (limit : ActionRateLimit)
    (tier : RateLimitTier) (htier : tier ∈ limit.tiers) :
    tier.window_secs ≤ maxWindowSecs limit := by
  have hmem : tier.window_secs
      ∈ limit.tiers.map RateLimitTier.window_secs :=
    List.mem_map_of_mem _ htier
  cases hl : limit.tiers.map RateLimitTier.window_secs with
  | nil => simp [hl] at hmem
  | cons w ws =>
    rw [hl] at hmem
    simp only [maxWindowSecs, hl]
    rcases List.mem_cons.mp hmem with h | h
    · exact h ▸ (foldl_max_le ws w).1
    · exact (foldl_max_le ws w).2 _ h

theorem acceptedTimes_cons (enabled : Bool) (mult : ℚ)
    (limit : ActionRateLimit) (t : ℚ) (rest : List (ActionRateLimit × ℚ))
    (c : ClientState) :
    acceptedTimes enabled mult ((limit, t) :: rest) c
      = (if (check_rate_limit enabled limit mult c t).2 = none
         then [t] else []) ++
        acceptedTimes enabled mult rest
          (check_rate_limit enabled limit mult c t).1 := rfl

theorem tier_bound_aux (limit : ActionRateLimit) (mult : ℚ)
    (tier : RateLimitTier) (htier : tier ∈ limit.tiers) :
    ∀ (times : List ℚ) (c : ClientState) (accepted : List ℚ) (T : ℚ),
      times.Pairwise (· ≤ ·) → (∀ t ∈ times, T ≤ t) →
      (∃ pruned : List ℚ,
        (∀ x ∈ pruned, x + (maxWindowSecs limit : ℚ) ≤ T) ∧
        accepted.Perm (pruned ++ c.requests)) →
      (∀ x ∈ c.requests, x ≤ T) →
      (∀ b : ℚ, accepted.countP
          (fun x => decide (b < x) && decide (x ≤ b + (tier.window_secs : ℚ)))
        ≤ tier.max_requests) →
      ∀ a : ℚ, ((accepted ++ acceptedTimes true mult
          (times.map (fun t => (limit, t))) c).countP
          (fun x => decide (a < x) && decide (x ≤ a + (tier.window_secs : ℚ))))
        ≤ tier.max_requests := by
  intro times
  induction times with
  | nil =>
    intro c accepted T _ _ _ _ hcnt a
    simpa [acceptedTimes] using hcnt a
  | cons t rest ih =>
    intro c accepted T hpw hT hperm₀ hreq hcnt a
    obtain ⟨pruned, hpruned, hperm⟩ := hperm₀
    have hTt : T ≤ t := hT t (List.mem_cons_self _ _)
    have hTrest : ∀ t' ∈ rest, t ≤ t' := fun t' ht' =>
      (List.pairwise_cons.mp hpw).1 t' ht'
    have hpw' : rest.Pairwise (· ≤ ·) := (List.pairwise_cons.mp hpw).2
    rw [List.map_cons, acceptedTimes_cons]
    cases hbl : c.is_blocked t with
    | some r =>
      have hstep : check_rate_limit true limit mult c t = (c, some r) := by
        simp [check_rate_limit, hbl]
      rw [hstep]
      simp only [Prod.snd, reduceCtorEq, if_false, List.nil_append, Prod.fst]
      exact ih c accepted t hpw' hTrest
        ⟨pruned, fun x hx => le_trans (hpruned x hx) hTt, hperm⟩
        (fun x hx => le_trans (hreq x hx) hTt) hcnt a
    | none =>
      have hpruned' : ∀ x ∈ pruned ++ c.requests.filter
          (fun x => !(decide (t - (maxWindowSecs limit : ℚ) < x))),
          x + (maxWindowSecs limit : ℚ) ≤ t := by
        intro x hx
        rcases List.mem_append.mp hx with h | h
        · exact le_trans (hpruned x h) hTt
        · have hxf := (List.mem_filter.mp h).2
          have hxle : x ≤ t - (maxWindowSecs limit : ℚ) := by
            by_contra hgt
            rw [not_le] at hgt
            simp [hgt] at hxf
          linarith
      have hperm' : accepted.Perm
          ((pruned ++ c.requests.filter
              (fun x => !(decide (t - (maxWindowSecs limit : ℚ) < x)))) ++
            cleanupExpired c.requests t (maxWindowSecs limit : ℚ)) := by
        have h1 : c.requests.Perm
            (cleanupExpired c.requests t (maxWindowSecs limit : ℚ) ++
              c.requests.filter
                (fun x => !(decide (t - (maxWindowSecs limit : ℚ) < x)))) :=
          (List.filter_append_perm _ _).symm
        have h2 : (pruned ++ c.requests).Perm
            (pruned ++ (cleanupExpired c.requests t (maxWindowSecs limit : ℚ)
              ++ c.requests.filter
                (fun x => !(decide (t - (maxWindowSecs limit : ℚ) < x))))) :=
          List.Perm.append_left _ h1
        have h3 : (pruned ++ (cleanupExpired c.requests t
              (maxWindowSecs limit : ℚ)
            ++ c.requests.filter
              (fun x => !(decide (t - (maxWindowSecs limit : ℚ) < x))))).Perm
            (pruned ++ (c.requests.filter
              (fun x => !(decide (t - (maxWindowSecs limit : ℚ) < x)))
              ++ cleanupExpired c.requests t (maxWindowSecs limit : ℚ))) :=
          List.Perm.append_left _ List.perm_append_comm
        have h4 := h2.trans h3
        rw [← List.append_assoc] at h4
        exact hperm.trans h4
      have hreq' : ∀ x ∈ cleanupExpired c.requests t (maxWindowSecs limit : ℚ),
          x ≤ t := fun x hx =>
        le_trans (hreq x (List.mem_filter.mp hx).1) hTt
      cases hfind : limit.tiers.find?
          (fun tr => tr.max_requests ≤ countInWindow
            (cleanupExpired c.requests t (maxWindowSecs limit : ℚ)) t
            tr.window_secs) with
      | some tr =>
        have hstep : check_rate_limit true limit mult c t
            = ((ClientState.record_request c limit mult t).1,
               (ClientState.record_request c limit mult t).2) := by
          simp [check_rate_limit, hbl]
        have hrr1 : (ClientState.record_request c limit mult t).1
            = { requests := cleanupExpired c.requests t (maxWindowSecs limit : ℚ)
                violations := c.violations + 1
                blocked_until := some (t + (tr.window_secs : ℚ) *
                  mult ^ (c.violations + 1 - 1)) } := by
          simp [ClientState.record_request, hfind]
        have hrr2 : (ClientState.record_request c limit mult t).2
            = some ((tr.window_secs : ℚ) * mult ^ (c.violations + 1 - 1)) := by
          simp [ClientState.record_request, hfind]
        rw [hstep, hrr1, hrr2]
        simp only [reduceCtorEq, if_false, List.nil_append]
        exact ih _ accepted t hpw' hTrest
          ⟨_, hpruned', hperm'⟩ hreq' hcnt a
      | none =>
        have hstep : check_rate_limit true limit mult c t
            = ((ClientState.record_request c limit mult t).1,
               (ClientState.record_request c limit mult t).2) := by
          simp [check_rate_limit, hbl]
        have hrr1 : (ClientState.record_request c limit mult t).1
            = { c with requests :=
                cleanupExpired c.requests t (maxWindowSecs limit : ℚ)
                  ++ [t] } := by
          simp [ClientState.record_request, hfind]
        have hrr2 : (ClientState.record_request c limit mult t).2 = none := by
          simp [ClientState.record_request, hfind]
        rw [hstep, hrr1, hrr2]
        simp only [if_pos rfl]
        rw [← List.append_assoc]
        have hcnt' : ∀ b : ℚ, ((accepted ++ [t]).countP
            (fun x => decide (b < x) &&
              decide (x ≤ b + (tier.window_secs : ℚ))))
            ≤ tier.max_requests := by
          intro b
          rw [List.countP_append]
          by_cases hbt : (decide (b < t) &&
              decide (t ≤ b + (tier.window_secs : ℚ))) = true
          · obtain ⟨hb1', hb2'⟩ : b < t ∧ t ≤ b + (tier.window_secs : ℚ) := by
              simpa using hbt
            have hWmax : (tier.window_secs : ℚ)
                ≤ (maxWindowSecs limit : ℚ) := by
              exact_mod_cast tier_window_le_maxWindowSecs limit tier htier
            have hsingle : ([t].countP (fun x => decide (b < x) &&
                decide (x ≤ b + (tier.window_secs : ℚ)))) = 1 := by
              simp [List.countP_cons, hbt]
            have hacc := hperm'.countP_eq (fun x => decide (b < x) &&
              decide (x ≤ b + (tier.window_secs : ℚ)))
            have hcz : ((pruned ++ c.requests.filter
                (fun x => !(decide (t - (maxWindowSecs limit : ℚ) < x)))).countP
                (fun x => decide (b < x) &&
                  decide (x ≤ b + (tier.window_secs : ℚ)))) = 0 := by
              apply List.countP_eq_zero.mpr
              intro x hx hpx
              obtain ⟨hx1', hx2'⟩ : b < x ∧ x ≤ b + (tier.window_secs : ℚ) := by
                simpa using hpx
              have hxw := hpruned' x hx
              linarith
            have hmono : ((cleanupExpired c.requests t
                (maxWindowSecs limit : ℚ)).countP
                (fun x => decide (b < x) &&
                  decide (x ≤ b + (tier.window_secs : ℚ))))
                ≤ ((cleanupExpired c.requests t
                  (maxWindowSecs limit : ℚ)).countP
                  (fun x => decide (t - (tier.window_secs : ℚ) < x))) := by
              apply List.countP_mono_left
              intro x _ hpx
              obtain ⟨hx1', -⟩ : b < x ∧ x ≤ b + (tier.window_secs : ℚ) := by
                simpa using hpx
              exact decide_eq_true (by linarith)
            have hlt : ((cleanupExpired c.requests t
                (maxWindowSecs limit : ℚ)).countP
                (fun x => decide (t - (tier.window_secs : ℚ) < x)))
                < tier.max_requests := by
              have hnone := List.find?_eq_none.mp hfind tier htier
              simp only [decide_eq_true_eq, Nat.not_le] at hnone
              calc ((cleanupExpired c.requests t
                  (maxWindowSecs limit : ℚ)).countP
                  (fun x => decide (t - (tier.window_secs : ℚ) < x)))
                  = countInWindow (cleanupExpired c.requests t
                      (maxWindowSecs limit : ℚ)) t tier.window_secs := by
                    rw [countInWindow, List.countP_eq_length_filter]
                _ < tier.max_requests := hnone
            rw [List.countP_append] at hacc
            omega
          · have hbt' : (decide (b < t) &&
                decide (t ≤ b + (tier.window_secs : ℚ))) = false :=
              eq_false_of_ne_true hbt
            have hsingle : ([t].countP (fun x => decide (b < x) &&
                decide (x ≤ b + (tier.window_secs : ℚ)))) = 0 := by
              simp [List.countP_cons, hbt']
            rw [hsingle]
            simpa using hcnt b
        have hperm'' : (accepted ++ [t]).Perm
            ((pruned ++ c.requests.filter
                (fun x => !(decide (t - (maxWindowSecs limit : ℚ) < x)))) ++
              (cleanupExpired c.requests t (maxWindowSecs limit : ℚ) ++ [t])) := by
          have := hperm'.append_right [t]
          rwa [List.append_assoc] at this
        refine ih _ (accepted ++ [t]) t hpw' hTrest
          ⟨_, hpruned', hperm''⟩ ?_ hcnt' a
        intro x hx
        rcases List.mem_append.mp hx with h | h
        · exact hreq' x h
        · simp at h
          exact h.le

/-- C6 (amended): for a sequence of admission checks that all use one
action's limit, with non-decreasing instants, no tier `(W, N)` of that limit
ever holds more than `N` accepted requests whose instants fall within one
half-open window `(a, a + W]`: a request is recorded only when every tier's
current window holds strictly fewer than `max_requests` entries, and only
accepted requests are recorded.  (As stated over checks of *mixed* actions
the claim fails: see `rate_limit_tier_bound_counterexample`.) -/
theorem rate_limit_tier_bound (limit : ActionRateLimit) (mult : ℚ)
    (times : List ℚ) (hmono : times.Pairwise (· ≤ ·))
    (tier : RateLimitTier) (htier : tier ∈ limit.tiers) (a : ℚ) :
    ((acceptedTimes true mult (times.map (fun t => (limit, t)))
        ClientState.new).countP
        (fun x => decide (a < x) && decide (x ≤ a + (tier.window_secs : ℚ))))
      ≤ tier.max_requests := by
  cases times with
  | nil => simp [acceptedTimes]
  | cons t0 rest =>
    have hT : ∀ t ∈ t0 :: rest, t0 ≤ t := by
      intro t ht
      rcases List.mem_cons.mp ht with rfl | h
      · exact le_refl t
      · exact (List.pairwise_cons.mp hmono).1 t h
    have haux := tier_bound_aux limit mult tier htier (t0 :: rest)
      ClientState.new [] t0 hmono hT
      ⟨[], by simp, by simp [ClientState.new]⟩
      (by simp [ClientState.new]) (by simp) a
    simpa using haux

/-- Witness for `rate_limit_tier_bound`: the S6 trace accepts two requests,
and any 5-second window holds at most 2 of them. -/
theorem rate_limit_tier_bound_witness :
    ((acceptedTimes true 2 ([0, 1 / 2, 1].map (fun t => (s6Limit, t)))
        ClientState.new).countP
        (fun x => decide ((-1 : ℚ) < x) &&
          decide (x ≤ -1 + (((⟨5, 2⟩ : RateLimitTier).window_secs : ℚ)))))
      ≤ (⟨5, 2⟩ : RateLimitTier).max_requests :=
  rate_limit_tier_bound s6Limit 2 [0, 1 / 2, 1]
    (by norm_num [List.pairwise_cons]) ⟨5, 2⟩ (by simp [s6Limit]) (-1)

/-! ## C9 — typed registration and parse failures -/

/-- C9: when the arguments JSON fails to deserialize, the adapted executor
returns `FailPermanently` with a message reporting the parse failure, the
job's logic is not invoked (the outcome is independent of the logic
function), `JobRegistry::execute` surfaces it as
`Failed (FailPermanently msg)`, and by the retry rule such a result is never
retried. -/
theorem registry_parse_failure_spec {Arguments : Type}
    (parse : Json → Except String Arguments)
    (logic logic' : Arguments → Except JobError Unit)
    (name : String) (args : Json) (e : String) (hp : parse args = .error e)
    (rc mr : Int) :
    adaptJob parse logic args
      = .error (.failPermanently ("Failed to parse job arguments: " ++ e)) ∧
    adaptJob parse logic args = adaptJob parse logic' args ∧
    registryExecute [(name, adaptJob parse logic)] name args
      = .failed (.failPermanently ("Failed to parse job arguments: " ++ e)) ∧
    shouldRetry
      (.failed (.failPermanently ("Failed to parse job arguments: " ++ e)))
      rc mr = false := by
  have h1 : adaptJob parse logic args
      = .error (.failPermanently ("Failed to parse job arguments: " ++ e)) := by
    simp [adaptJob, hp]
  have h1' : adaptJob parse logic' args
      = .error (.failPermanently ("Failed to parse job arguments: " ++ e)) := by
    simp [adaptJob, hp]
  refine ⟨h1, h1.trans h1'.symm, ?_, rfl⟩
  simp [registryExecute, List.lookup, h1]

/-- Witness for `registry_parse_failure_spec` with a concrete always-failing
decoder. -/
theorem registry_parse_failure_spec_witness :
    adaptJob (fun _ : Json => (.error "bad" : Except String Unit))
        (fun _ => .ok ()) Json.null
      = .error (.failPermanently ("Failed to parse job arguments: " ++ "bad")) ∧
    adaptJob (fun _ : Json => (.error "bad" : Except String Unit))
        (fun _ => .ok ()) Json.null
      = adaptJob (fun _ : Json => (.error "bad" : Except String Unit))
          (fun _ => .error (.tryAgainLater "x")) Json.null ∧
    registryExecute
        [("send", adaptJob (fun _ : Json => (.error "bad" : Except String Unit))
          (fun _ => .ok ()))] "send" Json.null
      = .failed (.failPermanently ("Failed to parse job arguments: " ++ "bad")) ∧
    shouldRetry
      (.failed (.failPermanently ("Failed to parse job arguments: " ++ "bad")))
      0 4 = false :=
  registry_parse_failure_spec (fun _ => .error "bad") (fun _ => .ok ())
    (fun _ => .error (.tryAgainLater "x")) "send" Json.null "bad" rfl 0 4

/-! ## C7 — the outbox drain -/

theorem listen_loop_nil : ∀ n : Nat, listen_loop n [] = ([], []) := by
  intro n
  induction n with
  | zero => rfl
  | succ n ih => simp [listen_loop, drainQueue, drainLoop, ih]

theorem drainLoop_spec :
    ∀ (fuel : Nat) (rows : List WsMessageModel), rows.length ≤ fuel →
      (rows.map WsMessageModel.id).Nodup →
      ∃ rows' : List WsMessageModel,
        rows'.Perm rows ∧
        rows'.Pairwise (fun m₁ m₂ => m₁.created_at ≤ m₂.created_at) ∧
        drainLoop fuel rows = (rows'.filterMap messageAction, []) := by
  intro fuel
  induction fuel with
  | zero =>
    intro rows hlen _
    have : rows = [] := List.eq_nil_of_length_eq_zero (Nat.le_zero.mp hlen)
    subst this
    exact ⟨[], List.Perm.refl _, List.Pairwise.nil, rfl⟩
  | succ fuel ih =>
    intro rows hlen hnodup
    cases hsel : selectOldestMessage rows with
    | none =>
      have : rows = [] := (selectOldestBy_eq_none _ _).mp hsel
      subst this
      exact ⟨[], List.Perm.refl _, List.Pairwise.nil, rfl⟩
    | some m =>
      obtain ⟨hmem, hmin⟩ := selectOldestBy_spec _ _ _ hsel
      obtain ⟨l1, l2, rfl⟩ := List.append_of_mem hmem
      have hmapeq : (l1 ++ m :: l2).map WsMessageModel.id
          = l1.map WsMessageModel.id ++ m.id :: l2.map WsMessageModel.id := by
        simp
      rw [hmapeq] at hnodup
      have hdisj := List.disjoint_of_nodup_append hnodup
      have hnd2 : (m.id :: l2.map WsMessageModel.id).Nodup :=
        hnodup.of_append_right
      have hml1 : m.id ∉ l1.map WsMessageModel.id := fun hmm =>
        hdisj hmm (List.mem_cons_self _ _)
      have hml2 : m.id ∉ l2.map WsMessageModel.id :=
        (List.nodup_cons.mp hnd2).1
      have hfilter : (l1 ++ m :: l2).filter (fun r => r.id ≠ m.id)
          = l1 ++ l2 := by
        rw [List.filter_append, List.filter_cons]
        have hm : (decide (m.id ≠ m.id)) = false := by simp
        rw [hm]
        simp only [Bool.false_eq_true, if_false]
        have hf1 : l1.filter (fun r => r.id ≠ m.id) = l1 :=
          List.filter_eq_self.mpr (fun r hr => decide_eq_true
            (fun heq => hml1 (heq ▸ List.mem_map_of_mem _ hr)))
        have hf2 : l2.filter (fun r => r.id ≠ m.id) = l2 :=
          List.filter_eq_self.mpr (fun r hr => decide_eq_true
            (fun heq => hml2 (heq ▸ List.mem_map_of_mem _ hr)))
        rw [hf1, hf2]
      have hlen' : (l1 ++ l2).length ≤ fuel := by
        have := hlen
        simp only [List.length_append, List.length_cons] at this ⊢
        omega
      have hnodup' : ((l1 ++ l2).map WsMessageModel.id).Nodup := by
        have hsub : List.Sublist ((l1 ++ l2).map WsMessageModel.id)
            ((l1 ++ m :: l2).map WsMessageModel.id) := by
          apply List.Sublist.map
          exact List.Sublist.append (List.Sublist.refl l1)
            (List.sublist_cons_self m l2)
        exact List.Nodup.sublist hsub (hmapeq ▸ hnodup)
      obtain ⟨rows'', hperm'', hpw'', hdrain''⟩ := ih (l1 ++ l2) hlen' hnodup'
      refine ⟨m :: rows'', ?_, ?_, ?_⟩
      · exact (hperm''.cons m).trans List.perm_middle.symm
      · apply List.pairwise_cons.mpr
        refine ⟨?_, hpw''⟩
        intro x hx
        exact hmin x (hperm''.mem_iff.mp hx |> fun hxl =>
          (List.perm_middle.symm.mem_iff.mp (List.mem_cons_of_mem m hxl)))
      · show (match selectOldestMessage (l1 ++ m :: l2) with
          | none => ([], l1 ++ m :: l2)
          | some m => _) = _
        rw [hsel]
        simp only [hfilter, hdrain'']
        cases hact : messageAction m with
        | some a => simp [List.filterMap_cons, hact]
        | none => simp [List.filterMap_cons, hact]

/-- Counterexample to C7 as stated: `listen_loop` blocks on
`listener.recv()` *before* its first drain, so on startup — zero
notifications received — a non-empty outbox stays untouched and nothing is
forwarded. -/
theorem listener_startup_no_drain_counterexample :
    (listen_loop 0 [exampleOutboxRow]).1 = [] ∧
    (listen_loop 0 [exampleOutboxRow]).2 = [exampleOutboxRow] ∧
    [exampleOutboxRow] ≠ ([] : List WsMessageModel) :=
  ⟨rfl, rfl, by simp⟩

/-- C7 (amended): on every notification received on
`websocket_new_message` (though not on startup before the first
notification), the dispatcher drains the `websocket_message` table: rows are
processed oldest-first by `created_at`; each row whose `recipient_criteria`
parses as `user{user_id}` or `all` produces one `send_to_user` /
`send_to_all` call with the JSON-serialized payload; rows whose criteria do
not parse are deleted without being forwarded; afterwards no row remains. -/
theorem listen_loop_spec (n : Nat) (hn : 1 ≤ n) (rows : List WsMessageModel)
    (hnodup : (rows.map WsMessageModel.id).Nodup) :
    (∃ rows' : List WsMessageModel,
      rows'.Perm rows ∧
      rows'.Pairwise (fun m₁ m₂ => m₁.created_at ≤ m₂.created_at) ∧
      listen_loop n rows = (rows'.filterMap messageAction, [])) ∧
    (∀ m : WsMessageModel,
      parseRecipientCriteria m.recipient_criteria = none →
      messageAction m = none) ∧
    (∀ (m : WsMessageModel) (uid : String),
      parseRecipientCriteria m.recipient_criteria = some (.user uid) →
      messageAction m = some (.sendToUser uid (serializeJson m.payload))) ∧
    (∀ m : WsMessageModel,
      parseRecipientCriteria m.recipient_criteria = some .all →
      messageAction m = some (.sendToAll (serializeJson m.payload))) := by
  refine ⟨?_, ?_, ?_, ?_⟩
  · obtain ⟨rows', hperm, hpw, hdrain⟩ :=
      drainLoop_spec rows.length rows (le_refl _) hnodup
    obtain ⟨k, rfl⟩ : ∃ k, n = k + 1 := ⟨n - 1, by omega⟩
    refine ⟨rows', hperm, hpw, ?_⟩
    show (let first := drainQueue rows
          let rest := listen_loop k first.2
          (first.1 ++ rest.1, rest.2)) = _
    rw [show drainQueue rows = (rows'.filterMap messageAction, []) from hdrain]
    simp [listen_loop_nil]
  · intro m hm
    simp [messageAction, hm]
  · intro m uid hm
    simp [messageAction, hm]
  · intro m hm
    simp [messageAction, hm]

/-- Witness for `listen_loop_spec`: one notification drains a three-row
outbox holding a user-addressed row, a broadcast row and a malformed row. -/
theorem listen_loop_spec_witness :
    (∃ rows' : List WsMessageModel,
      rows'.Perm [exampleOutboxRow, exampleUserRow, exampleMalformedRow] ∧
      rows'.Pairwise (fun m₁ m₂ => m₁.created_at ≤ m₂.created_at) ∧
      listen_loop 1 [exampleOutboxRow, exampleUserRow, exampleMalformedRow]
        = (rows'.filterMap messageAction, [])) ∧
    (∀ m : WsMessageModel,
      parseRecipientCriteria m.recipient_criteria = none →
      messageAction m = none) ∧
    (∀ (m : WsMessageModel) (uid : String),
      parseRecipientCriteria m.recipient_criteria = some (.user uid) →
      messageAction m = some (.sendToUser uid (serializeJson m.payload))) ∧
    (∀ m : WsMessageModel,
      parseRecipientCriteria m.recipient_criteria = some .all →
      messageAction m = some (.sendToAll (serializeJson m.payload))) :=
  listen_loop_spec 1 (le_refl 1)
    [exampleOutboxRow, exampleUserRow, exampleMalformedRow] (by decide)

end Erno
